import Mathlib

/-!
Shallow embedding of the OIL compiler (src/src/parser.rs and src/src/nasm.rs)
for checking the natural-language specification against the code.

Conventions of the embedding:
* Rust machine integers become `Nat` with explicit `% 2 ^ 64` / range checks
  where overflow matters.
* Fallible Rust code (`Result`, `?`, `unreachable!`, panics, index
  out-of-bounds) becomes `Except` / `Option`; each `unreachable!` arm is a
  distinguished error value, so "the arm is evaluated" is observable.
* Rust strings are `List Char` (the parser) or `String` (emitted assembly
  text); the `Cow<'src, str>` container is an explicit two-constructor type.
* Code of the repository that is not under src/ (types.rs, bytecode.rs,
  symbol_table.rs, ast.rs, the crate error type) is modelled from the spec;
  every such definition carries a doc comment starting `Modelled from the
  spec:`.  Everything else is translated from the source files.
-/

namespace OIL

/-- Modelled from the spec: the integer
data-type descriptors (types.rs is not under src/).  §3: `Int(width, signed)`
where width ∈ {8,16,32,64}; parser.rs uses the names `IntType::U8` ..
`IntType::S64`. -/
inductive IntType where
  | U8 | U16 | U32 | U64 | S8 | S16 | S32 | S64
deriving DecidableEq, Repr

/-- Modelled from the spec: byte width of an integer type (§3: width ∈
{8,16,32,64} bits, `size()` returns byte width). -/
def IntType.byteSize : IntType → Nat
  | .U8 => 1 | .U16 => 2 | .U32 => 4 | .U64 => 8
  | .S8 => 1 | .S16 => 2 | .S32 => 4 | .S64 => 8

/-- Modelled from the spec: signedness of an integer type. -/
def IntType.signed : IntType → Bool
  | .U8 => false | .U16 => false | .U32 => false | .U64 => false
  | .S8 => true | .S16 => true | .S32 => true | .S64 => true

/-- The unsigned integer type of the same width. -/
def IntType.unsignedOf : IntType → IntType
  | .U8 => .U8 | .U16 => .U16 | .U32 => .U32 | .U64 => .U64
  | .S8 => .U8 | .S16 => .U16 | .S32 => .U32 | .S64 => .U64

/-- Modelled from the spec: `DataType` (§3, types.rs is not under src/):
`Void`; `Bool`; `Int(width, signed)`; `Ref(inner)` — 8 bytes;
`Function { return_type, argument_types }` — 8 bytes as a value. -/
inductive DataType where
  | Void : DataType
  | Bool : DataType
  | Int : IntType → DataType
  | Ref : DataType → DataType
  | Function : DataType → List DataType → DataType
deriving Repr

/-- Modelled from the spec: `size()` returns the byte width (1/2/4/8) and
fails for `Void` (§3); `Function` is 8 bytes when used as a first-class
value (symbol address), `Ref` is 8 bytes. -/
def DataType.size : DataType → Option Nat
  | .Void => none
  | .Bool => some 1
  | .Int t => some t.byteSize
  | .Ref _ => some 8
  | .Function _ _ => some 8

/-- Modelled from the spec: `size_aligned()` rounds `size()` up to 8 bytes
(§3).  For the layout sums a `Void` entry (whose size is undefined and which
valid bytecode never stores in a slot) contributes 0. -/
def DataType.sizeAligned (d : DataType) : Nat :=
  match d.size with
  | some s => ((s + 7) / 8) * 8
  | none => 0

/-! ### NASM registers (src/src/nasm.rs, `NasmRegister`) -/

/-- `NasmRegister` from nasm.rs. -/
inductive NasmRegister where
  | Rax | Rbx | Rcx | Rdx | Rdi | Rsi | Rsp | Rbp | R8 | R9 | R10 | R11
deriving DecidableEq, Repr

/-- `NasmRegister::generate` from nasm.rs: the width-name table (copied
verbatim, including the order of the `r8`–`r11` rows) indexed by the operand
data type's size; the `unreachable!` on a size outside {1,2,4,8} (and the
failing `size()` of `Void`) is `none`. -/
def NasmRegister.generate (r : NasmRegister) (data_type : DataType) :
    Option String :=
  let text_options : List String := match r with
    | .Rax => ["al", "ax", "eax", "rax"]
    | .Rbx => ["bl", "bx", "ebx", "rbx"]
    | .Rcx => ["cl", "cx", "ecx", "rcx"]
    | .Rdx => ["dl", "dx", "edx", "rdx"]
    | .Rsi => ["sil", "si", "esi", "rsi"]
    | .Rdi => ["dil", "di", "edi", "rdi"]
    | .Rsp => ["spl", "sp", "esp", "rsp"]
    | .Rbp => ["bpl", "bp", "ebp", "rbp"]
    | .R8 => ["r8b", "r8d", "r8w", "r8"]
    | .R9 => ["r9b", "r9d", "r9w", "r9"]
    | .R10 => ["r10b", "r10d", "r10w", "r10"]
    | .R11 => ["r11b", "r11d", "r11w", "r11"]
  match data_type.size with
  | some 1 => text_options.get? 0
  | some 2 => text_options.get? 1
  | some 4 => text_options.get? 2
  | some 8 => text_options.get? 3
  | _ => none

/-- `data_type_generate` from nasm.rs: width keyword by size, `unreachable!`
otherwise. -/
def data_type_generate (data_type : DataType) : Option String :=
  match data_type.size with
  | some 1 => some "byte"
  | some 2 => some "word"
  | some 4 => some "dword"
  | some 8 => some "qword"
  | _ => none

/-! ### The fixed `print:` routine (nasm.rs, `PRINT_CODE`)

`PRINT_CODE` is a string constant in nasm.rs.  We embed it both as the
literal string and as a structured instruction list, prove the two agree
(`renderPrint_eq_PRINT_CODE`), and give the instruction list a small
operational semantics so the registers at the `syscall` are observable. -/

/-- The registers the `print:` routine touches. -/
inductive PReg where
  | rax | rdi | rsi | rdx
deriving DecidableEq, Repr

/-- One instruction of the `print:` routine: `enter a, b`, `mov r, imm`,
`mov r, [rbp + off]`, `syscall`, `leave`, `ret`. -/
inductive PInstr where
  | enter (a b : Nat)
  | movImm (dst : PReg) (imm : Nat)
  | movMem (dst : PReg) (off : Nat)
  | syscallInstr
  | leaveInstr
  | retInstr
deriving DecidableEq, Repr

/-- The instruction sequence of `PRINT_CODE` from nasm.rs. -/
def printInstrs : List PInstr :=
  [ .enter 0 0,
    .movImm .rax 1,
    .movImm .rdi 1,
    .movMem .rsi 24,
    .movMem .rdx 16,
    .syscallInstr,
    .leaveInstr,
    .retInstr ]

def PReg.name : PReg → String
  | .rax => "rax" | .rdi => "rdi" | .rsi => "rsi" | .rdx => "rdx"

/-- NASM text of one `print:` instruction, as nasm.rs writes it. -/
def PInstr.render : PInstr → String
  | .enter a b => "    enter " ++ toString a ++ ", " ++ toString b ++ "\n"
  | .movImm dst imm => "    mov " ++ dst.name ++ ", " ++ toString imm ++ "\n"
  | .movMem dst off =>
      "    mov " ++ dst.name ++ ", [rbp + " ++ toString off ++ "]\n"
  | .syscallInstr => "    syscall\n"
  | .leaveInstr => "    leave\n"
  | .retInstr => "    ret\n"

/-- The rendered routine: label line plus instruction lines. -/
def renderPrint : String :=
  "print:\n" ++ String.join (printInstrs.map PInstr.render)

/-- The `PRINT_CODE` string constant of nasm.rs, verbatim. -/
def PRINT_CODE : String :=
  "print:\n    enter 0, 0\n    mov rax, 1\n    mov rdi, 1\n" ++
  "    mov rsi, [rbp + 24]\n    mov rdx, [rbp + 16]\n    syscall\n" ++
  "    leave\n    ret\n"

/-- Machine state for running the `print:` routine: the four registers it
writes, the stack pointer and base pointer, and an 8-byte-cell memory
(addresses are byte addresses of 8-byte slots). -/
structure PState where
  rax : Nat
  rdi : Nat
  rsi : Nat
  rdx : Nat
  rsp : Nat
  rbp : Nat
  mem : Nat → Nat

def PState.setReg (st : PState) (r : PReg) (v : Nat) : PState :=
  match r with
  | .rax => { st with rax := v }
  | .rdi => { st with rdi := v }
  | .rsi => { st with rsi := v }
  | .rdx => { st with rdx := v }

/-- The register quadruple `(rax, rdi, rsi, rdx)` observed at a `syscall`. -/
structure SyscallObs where
  rax : Nat
  rdi : Nat
  rsi : Nat
  rdx : Nat
deriving DecidableEq, Repr

/-- Run instructions until the first `syscall` and observe the registers
there.  `enter a, 0` pushes `rbp` and sets `rbp := rsp` (then subtracts `a`,
here 0); `mov r, [rbp + off]` loads from memory; `none` if no `syscall` is
reached. -/
def runToSyscall : List PInstr → PState → Option SyscallObs
  | [], _ => none
  | i :: rest, st =>
    match i with
    | .enter _ _ =>
        let st' := { st with rsp := st.rsp - 8,
                             mem := fun a => if a = st.rsp - 8 then st.rbp else st.mem a }
        runToSyscall rest { st' with rbp := st'.rsp }
    | .movImm dst imm => runToSyscall rest (st.setReg dst imm)
    | .movMem dst off => runToSyscall rest (st.setReg dst (st.mem (st.rbp + off)))
    | .syscallInstr => some ⟨st.rax, st.rdi, st.rsi, st.rdx⟩
    | .leaveInstr => runToSyscall rest st
    | .retInstr => runToSyscall rest st

/-- Modelled from the spec: the Linux `write` system call convention used by
§4.G/§6 (`write (rax=1)`): the syscall number is `rax`, the file descriptor
`rdi`, the buffer address `rsi`, the byte count `rdx`. -/
structure WriteCall where
  fd : Nat
  buf : Nat
  count : Nat
deriving DecidableEq, Repr

/-- Observation of a syscall as a `write`, when `rax = 1`. -/
def SyscallObs.asWrite (o : SyscallObs) : Option WriteCall :=
  if o.rax = 1 then some ⟨o.rdi, o.rsi, o.rdx⟩ else none

/-! ### Bytecode IR operands and opcodes (bytecode.rs is not under src/;
the variants are modelled from the spec §3 and are exactly the ones nasm.rs
matches on) -/

/-- Modelled from the spec: the IR operand `Argument` (§3): `Register(id)`,
`Argument(id)`, `Constant { value, data_type }`, `Symbol { name, data_type }`,
`ReturnValue`, `VoidRegister`.  `value` is a `u64`, kept as a `Nat`. -/
inductive Argument where
  | Register : Nat → Argument
  | Argument : Nat → Argument
  | Constant : Nat → DataType → Argument
  | Symbol : String → DataType → Argument
  | ReturnValue : Argument
  | VoidRegister : Argument
deriving Repr

/-- `is_argument_comparable` from nasm.rs. -/
def is_argument_comparable (argument : Argument) : Bool :=
  !(match argument with
    | .Register _ => true
    | .Argument _ => true
    | _ => false)

/-- Modelled from the spec: the opcode vocabulary (§4.F, exhaustive), with
exactly the operand fields nasm.rs destructures. -/
inductive OpCode where
  | Mov (dst src : Argument)
  | Add (dst src : Argument)
  | Sub (dst src : Argument)
  | Mul (dst src : Argument)
  | Div (dst src : Argument)
  | Mod (dst src : Argument)
  | Not (dst : Argument)
  | Negate (dst : Argument)
  | Ref (dst src : Argument)
  | Deref (dst src : Argument)
  | DerefMov (dst src : Argument)
  | SetIfEqual (dst lhs rhs : Argument)
  | SetIfNotEqual (dst lhs rhs : Argument)
  | SetIfGreater (dst lhs rhs : Argument)
  | SetIfLess (dst lhs rhs : Argument)
  | SetIfGreaterOrEqual (dst lhs rhs : Argument)
  | SetIfLessOrEqual (dst lhs rhs : Argument)
  | Label (label_id : Nat)
  | Goto (label_id : Nat)
  | GotoIfZero (condition : Argument) (label_id : Nat)
  | GotoIfNotZero (condition : Argument) (label_id : Nat)
  | Call (dst lhs : Argument) (arguments : List Argument)
deriving Repr

/-- Modelled from the spec: a bytecode `Function` (§3): name, per-register
`DataType` list, per-argument `DataType` list, return type.  (The opcode
list itself is passed separately to the per-opcode generator.) -/
structure Function where
  name : String
  return_type : DataType
  register_types : List DataType
  argument_types : List DataType

/-- Modelled from the spec: `arguments_size = Σ aligned arg sizes` (§4.F). -/
def Function.argumentsSize (f : Function) : Nat :=
  (f.argument_types.map DataType.sizeAligned).sum

/-- Modelled from the spec:
`argument_position(i) = Σ_{j<i} aligned argument_size(j)` (§4.F). -/
def Function.argumentPosition (f : Function) (i : Nat) : Nat :=
  ((f.argument_types.take i).map DataType.sizeAligned).sum

/-- Modelled from the spec:
`register_position(i) = Σ_{j<i} aligned register_size(j)` (§4.F). -/
def Function.registerPosition (f : Function) (i : Nat) : Nat :=
  ((f.register_types.take i).map DataType.sizeAligned).sum

/-- Modelled from the spec: `stack_size = Σ aligned register sizes` (§4.F). -/
def Function.stackSize (f : Function) : Nat :=
  (f.register_types.map DataType.sizeAligned).sum

/-- Modelled from the spec: `Function::argument_data_type` (bytecode.rs is
not under src/) — the data type an operand carries: register and parameter
slots index the type lists, constants and symbols carry their own type,
`ReturnValue` has the return type.  An out-of-range index and the
`VoidRegister` sentinel (which carries no value) are modelled as `Void`,
whose `size()` fails at the first downstream use — exactly where the Rust
would panic. -/
def Function.argumentDataType (f : Function) : Argument → DataType
  | .Register id => f.register_types.getD id .Void
  | .Argument id => f.argument_types.getD id .Void
  | .Constant _ data_type => data_type
  | .Symbol _ data_type => data_type
  | .ReturnValue => f.return_type
  | .VoidRegister => .Void

/-- The distinguishable abort points of the nasm.rs emitter:
`voidRegisterArm` is the `unreachable!` arm for `Argument::VoidRegister` in
`generate_argument`; `badSize` is the `unreachable!` on a size outside
{1,2,4,8} in `data_type_generate` / `NasmRegister::generate` (including the
failing `size()` of `Void`); `notAFunction` is the `let else unreachable!`
on a non-`Function` callee type in the `Call` case; `assertFailed` is the
`assert_eq!` in `generate_comparison`. -/
inductive EmitErr where
  | voidRegisterArm
  | badSize
  | notAFunction
  | assertFailed
deriving DecidableEq, Repr

/-- Lift an `Option` produced by a partial source function into the emitter
error monad, tagging the panic it models. -/
def ofOption (o : Option α) (e : EmitErr) : Except EmitErr α :=
  match o with
  | some a => .ok a
  | none => .error e

/-- `Nasm::generate_argument` from nasm.rs: the operand text (with width
keyword and address form).  The `VoidRegister` arm is the source's
`unreachable!`. -/
def generate_argument (function : Function) (argument : Argument) :
    Except EmitErr String :=
  match argument with
  | .ReturnValue => do
      let w ← ofOption (data_type_generate function.return_type) .badSize
      .ok (w ++ " [rbp + " ++
        toString (8 + function.argumentsSize + function.return_type.sizeAligned)
        ++ "]")
  | .Register register_id => do
      let w ← ofOption
        (data_type_generate (function.register_types.getD register_id .Void))
        .badSize
      .ok (w ++ " [rbp - " ++
        toString (8 + function.registerPosition register_id) ++ "]")
  | .Argument argument_id => do
      let w ← ofOption
        (data_type_generate (function.argument_types.getD argument_id .Void))
        .badSize
      .ok (w ++ " [rbp + " ++
        toString (8 + function.argumentsSize - function.argumentPosition argument_id)
        ++ "]")
  | .Constant value _ => .ok (toString value)
  | .Symbol name _ => .ok name
  | .VoidRegister => .error .voidRegisterArm

/-- `Nasm::generate_infix` from nasm.rs. -/
def generate_infix (function : Function) (dst src : Argument)
    (operation : String) : Except EmitErr String := do
  let rax ← ofOption
    (NasmRegister.Rax.generate (function.argumentDataType dst)) .badSize
  let src_compiled ← generate_argument function src
  let dst_compiled ← generate_argument function dst
  if is_argument_comparable src then
    .ok ("    " ++ operation ++ " " ++ dst_compiled ++ ", " ++ src_compiled
      ++ "\n")
  else
    .ok ("    mov " ++ rax ++ ", " ++ src_compiled ++ "\n    " ++ operation
      ++ " " ++ dst_compiled ++ ", " ++ rax ++ "\n")

/-- `Nasm::generate_comparison` from nasm.rs; the `assert_eq!` on the
destination type is the `assertFailed` abort. -/
def generate_comparison (function : Function) (dst lhs rhs : Argument)
    (operation : String) : Except EmitErr String := do
  match function.argumentDataType dst with
  | .Bool => do
      let rax ← ofOption
        (NasmRegister.Rax.generate (function.argumentDataType lhs)) .badSize
      let lhs_compiled ← generate_argument function lhs
      let rhs_compiled ← generate_argument function rhs
      let dst_compiled ← generate_argument function dst
      .ok ("    mov " ++ rax ++ ", " ++ lhs_compiled ++ "\n    cmp " ++ rax
        ++ ", " ++ rhs_compiled ++ "\n    " ++ operation ++ " "
        ++ dst_compiled ++ "\n")
  | _ => .error .assertFailed

/-- The argument-push loop of the `Call` case in `Nasm::generate_opcode`
(`for argument in arguments.iter().rev()` — the caller passes the already
reversed list here). -/
def pushArgs (function : Function) : List Argument → Except EmitErr String
  | [] => .ok ""
  | a :: rest => do
      let rax ← ofOption
        (NasmRegister.Rax.generate (function.argumentDataType a)) .badSize
      let argument_compiled ← generate_argument function a
      let restText ← pushArgs function rest
      .ok ("    mov " ++ rax ++ ", " ++ argument_compiled
        ++ "\n    push rax\n" ++ restText)

mutual

/-- Structural equality of `DataType` (the derived `PartialEq` of the Rust
type), used by the `dst != src` guard on `Mov`. -/
def dtBeq : DataType → DataType → Bool
  | .Void, .Void => true
  | .Bool, .Bool => true
  | .Int a, .Int b => a == b
  | .Ref a, .Ref b => dtBeq a b
  | .Function r₁ a₁, .Function r₂ a₂ => dtBeq r₁ r₂ && dtBeqList a₁ a₂
  | _, _ => false

/-- Structural equality of `DataType` lists. -/
def dtBeqList : List DataType → List DataType → Bool
  | [], [] => true
  | x :: xs, y :: ys => dtBeq x y && dtBeqList xs ys
  | _, _ => false

end

/-- Structural equality of `Argument` (the derived `PartialEq` of the Rust
type), used by the `dst != src` guard on `Mov`. -/
def argBeq : Argument → Argument → Bool
  | .Register a, .Register b => a == b
  | .Argument a, .Argument b => a == b
  | .Constant v₁ t₁, .Constant v₂ t₂ => v₁ == v₂ && dtBeq t₁ t₂
  | .Symbol n₁ t₁, .Symbol n₂ t₂ => n₁ == n₂ && dtBeq t₁ t₂
  | .ReturnValue, .ReturnValue => true
  | .VoidRegister, .VoidRegister => true
  | _, _ => false

/-- `Nasm::generate_opcode` from nasm.rs: the text appended for one opcode.
The catch-all `_ => {}` of the source (which a `Mov` with equal operands
falls into) appends nothing. -/
def generate_opcode (function : Function) (opcode : OpCode) :
    Except EmitErr String :=
  match opcode with
  | .Mov dst src =>
      if argBeq dst src then .ok ""
      else generate_infix function dst src "mov"
  | .Add dst src => generate_infix function dst src "add"
  | .Sub dst src => generate_infix function dst src "sub"
  | .Mul dst src => do
      let rax ← ofOption
        (NasmRegister.Rax.generate (function.argumentDataType dst)) .badSize
      let rbx ← ofOption
        (NasmRegister.Rbx.generate (function.argumentDataType dst)) .badSize
      let src_compiled ← generate_argument function src
      let dst_compiled ← generate_argument function dst
      .ok ("    mov " ++ rax ++ ", " ++ dst_compiled ++ "\n    mov " ++ rbx
        ++ ", " ++ src_compiled ++ "\n    mul " ++ rbx ++ "\n    mov "
        ++ dst_compiled ++ ", " ++ rax ++ "\n")
  | .Div dst src => do
      let rax ← ofOption
        (NasmRegister.Rax.generate (function.argumentDataType dst)) .badSize
      let rbx ← ofOption
        (NasmRegister.Rbx.generate (function.argumentDataType dst)) .badSize
      let rdx ← ofOption
        (NasmRegister.Rdx.generate (function.argumentDataType dst)) .badSize
      let src_compiled ← generate_argument function src
      let dst_compiled ← generate_argument function dst
      .ok ("    xor " ++ rdx ++ ", " ++ rdx ++ "\n    mov " ++ rax ++ ", "
        ++ dst_compiled ++ "\n    mov " ++ rbx ++ ", " ++ src_compiled
        ++ "\n    div " ++ rbx ++ "\n    mov " ++ dst_compiled ++ ", "
        ++ rax ++ "\n")
  | .Mod dst src => do
      let rax ← ofOption
        (NasmRegister.Rax.generate (function.argumentDataType dst)) .badSize
      let rbx ← ofOption
        (NasmRegister.Rbx.generate (function.argumentDataType dst)) .badSize
      let rdx ← ofOption
        (NasmRegister.Rdx.generate (function.argumentDataType dst)) .badSize
      let src_compiled ← generate_argument function src
      let dst_compiled ← generate_argument function dst
      .ok ("    xor " ++ rdx ++ ", " ++ rdx ++ "\n    mov " ++ rax ++ ", "
        ++ dst_compiled ++ "\n    mov " ++ rbx ++ ", " ++ src_compiled
        ++ "\n    div " ++ rbx ++ "\n    mov " ++ dst_compiled ++ ", "
        ++ rdx ++ "\n")
  | .Not dst => do
      let dst_compiled ← generate_argument function dst
      .ok ("    and " ++ dst_compiled ++ ", 0x1\n    xor " ++ dst_compiled
        ++ ", 0x1\n")
  | .Ref dst src => do
      let rax ← ofOption
        (NasmRegister.Rax.generate (function.argumentDataType dst)) .badSize
      let src_compiled ← generate_argument function src
      let dst_compiled ← generate_argument function dst
      .ok ("    lea " ++ rax ++ ", " ++ src_compiled ++ "\n    mov "
        ++ dst_compiled ++ ", " ++ rax ++ "\n")
  | .Deref dst src => do
      let rax ← ofOption
        (NasmRegister.Rax.generate (function.argumentDataType src)) .badSize
      let rbx ← ofOption
        (NasmRegister.Rbx.generate (function.argumentDataType dst)) .badSize
      let src_compiled ← generate_argument function src
      let dst_compiled ← generate_argument function dst
      .ok ("    mov " ++ rax ++ ", " ++ src_compiled ++ "\n    mov " ++ rbx
        ++ ", [" ++ rax ++ "]\n    mov " ++ dst_compiled ++ ", " ++ rbx
        ++ "\n")
  | .DerefMov dst src => do
      let rax ← ofOption
        (NasmRegister.Rax.generate (function.argumentDataType src)) .badSize
      let rbx ← ofOption
        (NasmRegister.Rbx.generate (function.argumentDataType dst)) .badSize
      let src_compiled ← generate_argument function src
      let dst_compiled ← generate_argument function dst
      .ok ("    mov " ++ rax ++ ", " ++ dst_compiled ++ "\n    mov " ++ rbx
        ++ ", " ++ src_compiled ++ "\n    mov [" ++ rax ++ "], " ++ rbx
        ++ "\n")
  | .SetIfEqual dst lhs rhs => generate_comparison function dst lhs rhs "sete"
  | .SetIfNotEqual dst lhs rhs => generate_comparison function dst lhs rhs "setne"
  | .SetIfGreater dst lhs rhs => generate_comparison function dst lhs rhs "setg"
  | .SetIfLess dst lhs rhs => generate_comparison function dst lhs rhs "setl"
  | .SetIfGreaterOrEqual dst lhs rhs => generate_comparison function dst lhs rhs "setge"
  | .SetIfLessOrEqual dst lhs rhs => generate_comparison function dst lhs rhs "setle"
  | .Negate dst => do
      let dst_compiled ← generate_argument function dst
      .ok ("neg " ++ dst_compiled ++ "\n")
  | .Label label_id => .ok (".L" ++ toString label_id ++ ":\n")
  | .Goto label_id => .ok ("    jmp .L" ++ toString label_id ++ "\n")
  | .GotoIfZero condition label_id => do
      let rax ← ofOption
        (NasmRegister.Rax.generate (function.argumentDataType condition)) .badSize
      let condition_compiled ← generate_argument function condition
      .ok ("    mov " ++ rax ++ ", " ++ condition_compiled ++ "\n    test "
        ++ rax ++ ", " ++ rax ++ "\n    jz .L" ++ toString label_id ++ "\n")
  | .GotoIfNotZero condition label_id => do
      let rax ← ofOption
        (NasmRegister.Rax.generate (function.argumentDataType condition)) .badSize
      let condition_compiled ← generate_argument function condition
      .ok ("    mov " ++ rax ++ ", " ++ condition_compiled ++ "\n    test "
        ++ rax ++ ", " ++ rax ++ "\n    jnz .L" ++ toString label_id
        ++ "\n\n")
  | .Call dst lhs arguments =>
      match function.argumentDataType lhs with
      | .Function return_type _ => do
          let lhs_compiled ← generate_argument function lhs
          let dstPart ← (match return_type with
            | .Void => Except.ok ("", Option.none (α := String))
            | _ => do
                let compiled ← generate_argument function dst
                Except.ok ("    push " ++ compiled ++ "\n", some compiled))
          let argsText ← pushArgs function arguments.reverse
          let callText ← (match lhs with
            | .Symbol _ _ => Except.ok ("    call " ++ lhs_compiled ++ "\n")
            | _ => do
                let rax ← ofOption
                  (NasmRegister.Rax.generate (function.argumentDataType lhs))
                  .badSize
                Except.ok ("    mov " ++ rax ++ ", " ++ lhs_compiled
                  ++ "\n    call " ++ rax ++ "\n"))
          let argument_stack_size :=
            (arguments.map (fun a => (function.argumentDataType a).sizeAligned)).sum
          let popText := match dstPart.2 with
            | some dst_compiled => "pop " ++ dst_compiled ++ "\n"
            | none => ""
          Except.ok (dstPart.1 ++ argsText ++ callText ++ "    add rsp, "
            ++ toString argument_stack_size ++ "\n" ++ popText)
      | _ => .error .notAFunction

/-! ### Stack layout of the emitted call sequence (for the caller/callee
agreement claim) -/

/-- Semantics of the emitted call sequence, modelled from x86-64: every
caller push (`push rax` / `push <return slot>`) stores 8 bytes at a
descending stack address; `call` then pushes the return address and the
callee's `enter` pushes the caller's `rbp` and sets `rbp := rsp`.  Hence,
with `m` values pushed before `call`, the `j`-th pushed value (0-based, in
push order) ends up at `rbp + 8 + 8 * (m - j)` in the callee's frame:
the return address is at `rbp + 8` and earlier pushes sit higher. -/
def pushedOffset (m j : Nat) : Nat := 8 + 8 * (m - j)

/-- The push list the `Call` case of `generate_opcode` emits before `call`:
the return slot first when the return type is non-`Void` (`none` entry),
then the arguments reversed (`for argument in arguments.iter().rev()`). -/
def callPushList (return_void : Bool) (arguments : List Argument) :
    List (Option Argument) :=
  (if return_void then [] else [none]) ++ arguments.reverse.map some

/-- The `rbp`-relative offset at which the caller's push for argument `i`
(of `n`) lands in the callee frame: argument `i` is the
`(n - 1 - i)`-th argument push (the pushes walk the list reversed),
preceded by the return-slot push when the return type is non-`Void`. -/
def callerArgOffset (return_void : Bool) (n i : Nat) : Nat :=
  pushedOffset ((if return_void then 0 else 1) + n)
    ((if return_void then 0 else 1) + (n - 1 - i))

/-- The `rbp`-relative offset the callee emits for operand `Argument(i)`
(the address inside `generate_argument`'s `Argument` arm). -/
def calleeArgOffset (f : Function) (i : Nat) : Nat :=
  8 + f.argumentsSize - f.argumentPosition i

/-! ### Lexer (src/src/parser.rs) -/

/-- Rust's `char::is_ascii_whitespace`: space (32), tab (9), line feed
(10), form feed (12), carriage return (13); stated on code points. -/
def isAsciiWhitespace (c : Char) : Bool :=
  c.toNat == 32 || c.toNat == 9 || c.toNat == 10 || c.toNat == 12 ||
    c.toNat == 13

/-- Rust's `char::is_ascii_alphabetic` (`a`–`z`, `A`–`Z`); stated on code
points. -/
def isAsciiAlphabetic (c : Char) : Bool :=
  (97 ≤ c.toNat && c.toNat ≤ 122) || (65 ≤ c.toNat && c.toNat ≤ 90)

/-- Rust's `char::is_ascii_digit` (`0`–`9`); stated on code points. -/
def isAsciiDigit (c : Char) : Bool :=
  48 ≤ c.toNat && c.toNat ≤ 57

/-- Rust's `char::is_ascii_alphanumeric`. -/
def isAsciiAlphanumeric (c : Char) : Bool :=
  isAsciiAlphabetic c || isAsciiDigit c

/-- Rust's `Cow<'src, str>`: either a borrowed view or an owned string; we
record the viewed characters in both cases, so borrowedness (the
non-allocating case) is observable. -/
inductive Cow where
  | Borrowed (s : List Char)
  | Owned (s : List Char)
deriving DecidableEq, Repr

/-- The characters a `Cow` views. -/
def Cow.view : Cow → List Char
  | .Borrowed s => s
  | .Owned s => s

/-- Whether a `Cow` is the borrowed (non-allocating) case. -/
def Cow.isBorrowed : Cow → Bool
  | .Borrowed _ => true
  | .Owned _ => false

/-- UTF-8 byte length of a character list (Rust `str::len`). -/
def utf8Len (l : List Char) : Nat := (l.map Char.utf8Size).sum

/-- Rust's `CharIndices`: each character paired with its UTF-8 byte
offset, starting at `pos`. -/
def charIndicesFrom (pos : Nat) : List Char → List (Nat × Char)
  | [] => []
  | c :: rest => (pos, c) :: charIndicesFrom (pos + c.utf8Size) rest

/-- The exact-length prefix used by `String::truncate` when it shortens:
the prefix of UTF-8 byte length exactly `n`, or `none` when `n` is not a
character boundary (Rust panics there). -/
def truncAt : List Char → Nat → Option (List Char)
  | _, 0 => some []
  | [], _ + 1 => none
  | c :: cs, n + 1 =>
    if c.utf8Size ≤ n + 1 then (truncAt cs (n + 1 - c.utf8Size)).map (c :: ·)
    else none

/-- Rust's `String::truncate(new_len)`: a no-op when `new_len` is at least
the byte length, otherwise the prefix of byte length `new_len` (`none`
models the boundary panic). -/
def strTruncate (l : List Char) (new_len : Nat) : Option (List Char) :=
  if utf8Len l ≤ new_len then some l else truncAt l new_len

/-- The escape decoding of a single escaped character in `parse_string`:
`\r \n \t \0` decode to control characters, anything else to itself. -/
def escChar : Char → Char
  | 'r' => '\r'
  | 'n' => '\n'
  | 't' => '\t'
  | '0' => Char.ofNat 0
  | other => other

/-- The `while let Some((pos, ch)) = iter.next()` loop of `parse_string`
(parser.rs): `value` starts borrowed; a non-backslash character is pushed
only once owned; a backslash takes ownership, truncates to the byte
position of the backslash, and pushes the decoded next character.  `none`
models the `unreachable!` on a trailing lone backslash and the (never
exercised) truncate panic. -/
def parseStringLoop (value : Cow) : List (Nat × Char) → Option Cow
  | [] => some value
  | (pos, ch) :: iter =>
    if ch != '\\' then
      let value := match value with
        | .Owned s => Cow.Owned (s ++ [ch])
        | b => b
      parseStringLoop value iter
    else
      match strTruncate value.view pos with
      | none => none
      | some string =>
        match iter with
        | [] => none
        | (_, ch2) :: iter2 =>
            parseStringLoop (.Owned (string ++ [escChar ch2])) iter2

/-- `parse_string` from parser.rs (escape decoding of a string-literal
body, copy-on-write). -/
def parse_string (string : List Char) : Option Cow :=
  parseStringLoop (.Borrowed string) (charIndicesFrom 0 string)

/-- `TokenKind` from parser.rs. -/
inductive TokenKind where
  | Ident
  | Number (n : Nat)
  | Str (s : Cow)
  | Add | Sub | Mul | Div | Mod
  | Equals | Not | NotEquals
  | Greater | Less | GreaterOrEqual | LessOrEqual
  | LParen | RParen | LCurly | RCurly | LSquare | RSquare
  | Hash | AtSymbol | SemiColon | Colon | Comma | Assign
  | Function | Let | If | Else | While | True | False
deriving DecidableEq, Repr

/-- `Token` from parser.rs: source text plus kind. -/
structure Token where
  text : List Char
  kind : TokenKind
deriving DecidableEq, Repr

/-- `ParseError` from parser.rs. -/
inductive ParseError where
  | InvalidChar (c : Char)
  | UnclosedString
  | UnclosedParen (t : Token)
  | UnexpectedToken (t : Option Token)
deriving DecidableEq, Repr

/-- Modelled from the spec: the unified error type behind `CompilerResult`
(the crate root is not under src/).  It embeds `ParseError`;
`IntegerOverflow(text)` is the error kind for a `u64` literal overflow
(§7), produced by the `From` conversion applied by `text.parse()?`.
`internalPanic` models a Rust `unreachable!` reached through code whose
guard lives outside src/; `outOfFuel` is an artifact of embedding general
recursion with fuel and is never produced when ample fuel is supplied. -/
inductive CompilerErr where
  | parse (e : ParseError)
  | IntegerOverflow (text : List Char)
  | internalPanic
  | outOfFuel
deriving DecidableEq, Repr

/-- Decimal value of a digit string. -/
def digitsVal (text : List Char) : Nat :=
  text.foldl (fun a c => 10 * a + (c.toNat - 48)) 0

/-- Modelled from the spec: `text.parse::<u64>()` on the nonempty digit run
the lexer scans — `[0-9]+` parsed as unsigned 64-bit, where the only
failure is overflow, reported as `IntegerOverflow(text)` (§4.C, §7). -/
def u64Parse (text : List Char) : Except CompilerErr Nat :=
  let v := digitsVal text
  if v < 2 ^ 64 then .ok v else .error (.IntegerOverflow text)

/-- Keyword recognition by exact match on the accumulated slice
(`next_token`, parser.rs). -/
def keywordKind (text : List Char) : TokenKind :=
  match String.mk text with
  | "fn" => .Function
  | "let" => .Let
  | "if" => .If
  | "else" => .Else
  | "while" => .While
  | "true" => .True
  | "false" => .False
  | _ => .Ident

/-- The scanning loops `while self.peeking_char(...) { self.advance(...) }`
of `next_token`: the consumed span and the remainder. -/
def scanTake (p : Char → Bool) : List Char → List Char × List Char
  | [] => ([], [])
  | c :: rest =>
    if p c then
      let (t, r) := scanTake p rest
      (c :: t, r)
    else ([], c :: rest)

/-- The string-literal scanning loop of `next_token` (parser.rs), applied
after the opening quote is consumed: on `\` it advances twice; the loop
ends at a `"` (consumed by the final `advance`) and reports
`UnclosedString` when the stream runs dry first.  Returns the characters
between the quotes and the remainder after the closing quote. -/
def strScan : List Char → Except CompilerErr (List Char × List Char)
  | [] => .error (.parse .UnclosedString)
  | c :: rest =>
    if c == '"' then .ok ([], rest)
    else if c == '\\' then
      match rest with
      | [] => .error (.parse .UnclosedString)
      | d :: rest2 =>
        if rest2.isEmpty then .error (.parse .UnclosedString)
        else (strScan rest2).map fun (t, r) => (c :: d :: t, r)
    else
      if rest.isEmpty then .error (.parse .UnclosedString)
      else (strScan rest).map fun (t, r) => (c :: t, r)

/-- The lexer state: the remaining character stream (`Parser.chars` is a
`Peekable<CharIndices>` over the source; token texts are recorded directly,
so byte offsets need not be carried). -/
abbrev LexState := List Char

/-- `Parser::next_token` from parser.rs.  The outer `while` loop repeats
only through the whitespace branch, so it is embedded as skipping ASCII
whitespace first; each other branch returns.  The returned state is the
remaining stream (after an error the remainder is unobservable in the
source — every caller either restores its checkpoint or aborts — and is
chosen to match where the scan stopped). -/
def next_token (chars : LexState) : Except CompilerErr (Option Token) × LexState :=
  match chars.dropWhile isAsciiWhitespace with
  | [] => (.ok none, [])
  | ch :: rest =>
    if isAsciiAlphabetic ch || ch == '_' then
      let (text, rest') := scanTake (fun c => isAsciiAlphanumeric c || c == '_') (ch :: rest)
      (.ok (some ⟨text, keywordKind text⟩), rest')
    else if isAsciiDigit ch then
      let (text, rest') := scanTake isAsciiDigit (ch :: rest)
      match u64Parse text with
      | .ok n => (.ok (some ⟨text, .Number n⟩), rest')
      | .error e => (.error e, rest')
    else if ch == '"' then
      match strScan rest with
      | .ok (body, rest') =>
        match parse_string body with
        | some cow => (.ok (some ⟨'"' :: (body ++ ['"']), .Str cow⟩), rest')
        | none => (.error .internalPanic, rest')
      | .error e => (.error e, [])
    else
      match ch with
      | '+' => (.ok (some ⟨[ch], .Add⟩), rest)
      | '-' => (.ok (some ⟨[ch], .Sub⟩), rest)
      | '*' => (.ok (some ⟨[ch], .Mul⟩), rest)
      | '/' => (.ok (some ⟨[ch], .Div⟩), rest)
      | '%' => (.ok (some ⟨[ch], .Mod⟩), rest)
      | '=' =>
        match rest with
        | '=' :: rest2 => (.ok (some ⟨['=', '='], .Equals⟩), rest2)
        | _ => (.ok (some ⟨[ch], .Assign⟩), rest)
      | '!' =>
        match rest with
        | '=' :: rest2 => (.ok (some ⟨['!', '='], .NotEquals⟩), rest2)
        | _ => (.ok (some ⟨[ch], .Not⟩), rest)
      | '>' =>
        match rest with
        | '=' :: rest2 => (.ok (some ⟨['>', '='], .GreaterOrEqual⟩), rest2)
        | _ => (.ok (some ⟨[ch], .Greater⟩), rest)
      | '<' =>
        match rest with
        | '=' :: rest2 => (.ok (some ⟨['<', '='], .LessOrEqual⟩), rest2)
        | _ => (.ok (some ⟨[ch], .Less⟩), rest)
      | '(' => (.ok (some ⟨[ch], .LParen⟩), rest)
      | ')' => (.ok (some ⟨[ch], .RParen⟩), rest)
      | '{' => (.ok (some ⟨[ch], .LCurly⟩), rest)
      | '}' => (.ok (some ⟨[ch], .RCurly⟩), rest)
      | '[' => (.ok (some ⟨[ch], .LSquare⟩), rest)
      | ']' => (.ok (some ⟨[ch], .RSquare⟩), rest)
      | '#' => (.ok (some ⟨[ch], .Hash⟩), rest)
      | '@' => (.ok (some ⟨[ch], .AtSymbol⟩), rest)
      | ';' => (.ok (some ⟨[ch], .SemiColon⟩), rest)
      | ':' => (.ok (some ⟨[ch], .Colon⟩), rest)
      | ',' => (.ok (some ⟨[ch], .Comma⟩), rest)
      | other => (.error (.parse (.InvalidChar other)), rest)

/-- `Parser::peek_token` from parser.rs: clone the parser state, run
`next_token`, restore the clone — the token (or error) of `next_token`
with the state unchanged. -/
def peek_token (chars : LexState) : Except CompilerErr (Option Token) × LexState :=
  let prev_self := chars
  let token := (next_token chars).1
  (token, prev_self)

/-! ### Parser (src/src/parser.rs) -/

/-- `TokenKind::prefix_bp` from parser.rs. -/
def TokenKind.prefix_bp : TokenKind → Option Nat
  | .Not | .Hash | .AtSymbol | .Sub => some 7
  | _ => none

/-- `TokenKind::infix_bp` from parser.rs. -/
def TokenKind.infix_bp : TokenKind → Option (Nat × Nat)
  | .Equals | .NotEquals | .Greater | .Less | .GreaterOrEqual
  | .LessOrEqual => some (1, 2)
  | .Add | .Sub => some (3, 4)
  | .Mul | .Div | .Mod => some (5, 6)
  | _ => none

/-- `TokenKind::is_node` from parser.rs. -/
def TokenKind.is_node : TokenKind → Bool
  | .Ident | .Number _ | .Str _ | .True | .False => true
  | _ => false

/-- Modelled from the spec: `Variable { data_type }` (symbol_table.rs is
not under src/). -/
structure Variable where
  data_type : DataType

/-- Modelled from the spec: one scope of the symbol table (§3): an ordered
`name → Variable` mapping plus a parent scope-id. -/
structure Scope where
  parent : Nat
  vars : List (List Char × Variable)

/-- Modelled from the spec: the symbol table (§3): a forest of scopes
identified by stable integer ids (indices into `scopes`), with a current
scope cursor. -/
structure SymbolTable where
  scopes : List Scope
  current : Nat

/-- Modelled from the spec: `SymbolTable::new` — a root scope, the cursor
on it. -/
def SymbolTable.new : SymbolTable := ⟨[⟨0, []⟩], 0⟩

/-- Modelled from the spec: the current scope cursor. -/
def SymbolTable.get_scope (st : SymbolTable) : Nat := st.current

/-- Modelled from the spec: `add_scope` allocates a fresh scope-id parented
to the current scope and moves the cursor there (parser.rs adds variables
to the new scope right after, and pairs each `add_scope` with a later
`leave_scope`/`enter_scope`); returns the new id. -/
def SymbolTable.add_scope (st : SymbolTable) : Nat × SymbolTable :=
  let id := st.scopes.length
  (id, ⟨st.scopes ++ [⟨st.current, []⟩], id⟩)

/-- Modelled from the spec: `enter_scope(id)` moves the cursor. -/
def SymbolTable.enter_scope (st : SymbolTable) (id : Nat) : SymbolTable :=
  { st with current := id }

/-- Modelled from the spec: `leave_scope` pops the cursor to the parent. -/
def SymbolTable.leave_scope (st : SymbolTable) : SymbolTable :=
  { st with current := (st.scopes.getD st.current ⟨0, []⟩).parent }

/-- Modelled from the spec: `add_variable` appends a binding to the current
scope. -/
def SymbolTable.add_variable (st : SymbolTable) (name : List Char)
    (v : Variable) : SymbolTable :=
  match st.scopes.get? st.current with
  | some sc =>
      let sc := { sc with vars := sc.vars ++ [(name, v)] }
      { st with scopes := st.scopes.set st.current sc }
  | none => st

/-- The syntax tree, with the fields parser.rs stores into each `AstKind`
(the spec's §3 AST cases; ast.rs is not under src/). -/
inductive Ast where
  | Node (token : Token)
  | Prefix (oper : Token) (node : Ast)
  | Infix (oper : Token) (lhs rhs : Ast)
  | Assign (lhs rhs : Ast)
  | Block (statements : List Ast) (scope_id : Nat)
  | Declaration (name : List Char) (data_type : DataType)
      (argument_id : Option Nat) (value : Option Ast)
  | FunctionDeclaration (name : List Char) (scope_id : Nat)
      (return_type : DataType) (arguments : List Ast) (body : Ast)
  | IfStatement (condition : Ast) (if_block : Ast) (else_block : Option Ast)
  | WhileLoop (condition : Ast) (body : Ast)
  | Call (lhs : Ast) (arguments : List Ast)

/-- Modelled from the spec: `Ast::new(symbol_table, kind)` (ast.rs is not
under src/) wraps the constructed kind into a node; the parse phase's
failures are exactly the `ParseError` cases (§4.D), so node construction
itself succeeds. -/
def astNew (_symbol_table : SymbolTable) (a : Ast) : Except CompilerErr Ast :=
  .ok a

/-- `self.next_token()?` used purely to consume a token: the advanced state,
propagating errors. -/
def skip_token (chars : LexState) : Except CompilerErr LexState :=
  match next_token chars with
  | (.error e, _) => .error e
  | (.ok _, s) => .ok s

/-- `Parser::expect_token` from parser.rs. -/
def expect_token (chars : LexState) (kind : TokenKind) :
    Except CompilerErr (Token × LexState) :=
  match next_token chars with
  | (.error e, _) => .error e
  | (.ok none, _) => .error (.parse (.UnexpectedToken none))
  | (.ok (some token), s) =>
      if token.kind == kind then .ok (token, s)
      else .error (.parse (.UnexpectedToken (some token)))

/-- `Parser::peeking_token` from parser.rs: whether the next token has the
kind, without consuming. -/
def peeking_token (chars : LexState) (kind : TokenKind) :
    Except CompilerErr Bool :=
  match (peek_token chars).1 with
  | .error e => .error e
  | .ok none => .ok false
  | .ok (some token) => .ok (token.kind == kind)

/-- The `AstKind::Declaration` destructuring in
`parse_function_definition` (`let else unreachable!`): the parameter
declarations' data types. -/
def collectArgTypes : List Ast → Except CompilerErr (List DataType)
  | [] => .ok []
  | .Declaration _ data_type _ _ :: rest =>
      (collectArgTypes rest).map (data_type :: ·)
  | _ => .error .internalPanic

/-- `Parser::parse_data_type` from parser.rs.  `fuel` bounds the recursion
depth of the embedding (`outOfFuel` is never produced with ample fuel). -/
def parse_data_type : Nat → LexState → Except CompilerErr (DataType × LexState)
  | 0, _ => .error .outOfFuel
  | fuel + 1, chars =>
    match next_token chars with
    | (.error e, _) => .error e
    | (.ok none, _) => .error (.parse (.UnexpectedToken none))
    | (.ok (some token), chars) =>
      match token.kind with
      | .Ident =>
        match String.mk token.text with
        | "Void" => .ok (.Void, chars)
        | "Bool" => .ok (.Bool, chars)
        | "S8" => .ok (.Int .S8, chars)
        | "S16" => .ok (.Int .S16, chars)
        | "S32" => .ok (.Int .S32, chars)
        | "S64" => .ok (.Int .S64, chars)
        | "U8" => .ok (.Int .U8, chars)
        | "U16" => .ok (.Int .U16, chars)
        | "U32" => .ok (.Int .U32, chars)
        | "U64" => .ok (.Int .U64, chars)
        | "String" => .ok (.Ref (.Int .U8), chars)
        | _ => .error (.parse (.UnexpectedToken (some token)))
      | .Hash =>
        match parse_data_type fuel chars with
        | .ok (inner, chars) => .ok (.Ref inner, chars)
        | .error e => .error e
      | _ => .error (.parse (.UnexpectedToken (some token)))

/-- The result triple of the statement/expression parser functions. -/
abbrev PResult := Except CompilerErr (Ast × SymbolTable × LexState)

mutual

/-- `Parser::parse_let_statement` from parser.rs. -/
def parse_let_statement : Nat → SymbolTable → LexState → Option Nat → PResult
  | 0, _, _, _ => .error .outOfFuel
  | fuel + 1, symbol_table, chars, argument_id => do
    let (_, chars) ← expect_token chars .Let
    let (name, chars) ← expect_token chars .Ident
    let (_, chars) ← expect_token chars .Colon
    let (data_type, chars) ← parse_data_type (fuel + 1) chars
    let assignNext ← peeking_token chars .Assign
    let (value, symbol_table, chars) ←
      if assignNext then do
        let chars ← skip_token chars
        let (v, symbol_table, chars) ← parse_expr_bp fuel symbol_table chars 0
        pure (some v, symbol_table, chars)
      else
        pure (none, symbol_table, chars)
    let symbol_table := symbol_table.add_variable name.text ⟨data_type⟩
    let ast ← astNew symbol_table
      (.Declaration name.text data_type argument_id value)
    .ok (ast, symbol_table, chars)

/-- `Parser::parse_function_definition` from parser.rs. -/
def parse_function_definition : Nat → SymbolTable → LexState → PResult
  | 0, _, _ => .error .outOfFuel
  | fuel + 1, symbol_table, chars => do
    let (_, chars) ← expect_token chars .Function
    let (name, chars) ← expect_token chars .Ident
    let (_, chars) ← expect_token chars .LParen
    let outer_scope_id := symbol_table.get_scope
    let (scope_id, symbol_table) := symbol_table.add_scope
    let rparenNext ← peeking_token chars .RParen
    let (arguments, symbol_table, chars) ←
      if rparenNext then pure ([], symbol_table, chars)
      else parse_fn_args_loop fuel symbol_table chars []
    let argument_types ← collectArgTypes arguments
    let (_, chars) ← expect_token chars .RParen
    let colonNext ← peeking_token chars .Colon
    let (return_type, chars) ←
      if colonNext then do
        let chars ← skip_token chars
        parse_data_type (fuel + 1) chars
      else
        pure (DataType.Void, chars)
    let symbol_table := symbol_table.enter_scope outer_scope_id
    let symbol_table := symbol_table.add_variable name.text
      ⟨.Function return_type argument_types⟩
    let symbol_table := symbol_table.enter_scope scope_id
    let (body, symbol_table, chars) ← parse_block fuel symbol_table chars
    let symbol_table := symbol_table.leave_scope
    let ast ← astNew symbol_table
      (.FunctionDeclaration name.text scope_id return_type arguments body)
    .ok (ast, symbol_table, chars)

/-- The parameter-collecting `loop` of `parse_function_definition`. -/
def parse_fn_args_loop : Nat → SymbolTable → LexState → List Ast →
    Except CompilerErr (List Ast × SymbolTable × LexState)
  | 0, _, _, _ => .error .outOfFuel
  | fuel + 1, symbol_table, chars, acc => do
    let (arg, symbol_table, chars) ←
      parse_let_statement fuel symbol_table chars (some acc.length)
    let acc := acc ++ [arg]
    let commaNext ← peeking_token chars .Comma
    if !commaNext then .ok (acc, symbol_table, chars)
    else do
      let chars ← skip_token chars
      parse_fn_args_loop fuel symbol_table chars acc

/-- `Parser::parse_statement` from parser.rs. -/
def parse_statement : Nat → SymbolTable → LexState → PResult
  | 0, _, _ => .error .outOfFuel
  | fuel + 1, symbol_table, chars => do
    let letNext ← peeking_token chars .Let
    if letNext then parse_let_statement fuel symbol_table chars none
    else do
      let fnNext ← peeking_token chars .Function
      if fnNext then parse_function_definition fuel symbol_table chars
      else do
        let (lhs, symbol_table, chars) ← parse_expr_bp fuel symbol_table chars 0
        let assignNext ← peeking_token chars .Assign
        if !assignNext then .ok (lhs, symbol_table, chars)
        else do
          let chars ← skip_token chars
          let (rhs, symbol_table, chars) ← parse_expr_bp fuel symbol_table chars 0
          let ast ← astNew symbol_table (.Assign lhs rhs)
          .ok (ast, symbol_table, chars)

/-- `Parser::parse_block` from parser.rs. -/
def parse_block : Nat → SymbolTable → LexState → PResult
  | 0, _, _ => .error .outOfFuel
  | fuel + 1, symbol_table, chars => do
    let (scope_id, symbol_table) := symbol_table.add_scope
    let chars ← skip_token chars
    let (statements, symbol_table, chars) ←
      parse_block_loop fuel symbol_table chars []
    let chars ← skip_token chars
    let symbol_table := symbol_table.leave_scope
    let ast ← astNew symbol_table (.Block statements scope_id)
    .ok (ast, symbol_table, chars)

/-- The statement loop of `parse_block`
(`while !self.peeking_token(RCurly)?`). -/
def parse_block_loop : Nat → SymbolTable → LexState → List Ast →
    Except CompilerErr (List Ast × SymbolTable × LexState)
  | 0, _, _, _ => .error .outOfFuel
  | fuel + 1, symbol_table, chars, acc => do
    let rcurlyNext ← peeking_token chars .RCurly
    if rcurlyNext then .ok (acc, symbol_table, chars)
    else do
      let (statement, symbol_table, chars) ←
        parse_statement fuel symbol_table chars
      let (_, chars) ← expect_token chars .SemiColon
      parse_block_loop fuel symbol_table chars (acc ++ [statement])

/-- `Parser::parse_if_statement` from parser.rs. -/
def parse_if_statement : Nat → SymbolTable → LexState → PResult
  | 0, _, _ => .error .outOfFuel
  | fuel + 1, symbol_table, chars => do
    let (_, chars) ← expect_token chars .If
    let (condition, symbol_table, chars) ←
      parse_expr_bp fuel symbol_table chars 0
    let (if_block, symbol_table, chars) ← parse_block fuel symbol_table chars
    let elseNext ← peeking_token chars .Else
    let (else_block, symbol_table, chars) ←
      if elseNext then do
        let chars ← skip_token chars
        let (blk, symbol_table, chars) ← parse_block fuel symbol_table chars
        pure (some blk, symbol_table, chars)
      else
        pure (none, symbol_table, chars)
    let ast ← astNew symbol_table (.IfStatement condition if_block else_block)
    .ok (ast, symbol_table, chars)

/-- `Parser::parse_while_loop` from parser.rs. -/
def parse_while_loop : Nat → SymbolTable → LexState → PResult
  | 0, _, _ => .error .outOfFuel
  | fuel + 1, symbol_table, chars => do
    let (_, chars) ← expect_token chars .While
    let (condition, symbol_table, chars) ←
      parse_expr_bp fuel symbol_table chars 0
    let (body, symbol_table, chars) ← parse_block fuel symbol_table chars
    let ast ← astNew symbol_table (.WhileLoop condition body)
    .ok (ast, symbol_table, chars)

/-- `Parser::parse_function_call_args` from parser.rs. -/
def parse_function_call_args : Nat → SymbolTable → LexState →
    Except CompilerErr (List Ast × SymbolTable × LexState)
  | 0, _, _ => .error .outOfFuel
  | fuel + 1, symbol_table, chars => do
    let (_, chars) ← expect_token chars .LParen
    let rparenNext ← peeking_token chars .RParen
    if rparenNext then do
      let chars ← skip_token chars
      .ok ([], symbol_table, chars)
    else
      parse_call_args_loop fuel symbol_table chars []

/-- The argument-collecting `loop` of `parse_function_call_args`. -/
def parse_call_args_loop : Nat → SymbolTable → LexState → List Ast →
    Except CompilerErr (List Ast × SymbolTable × LexState)
  | 0, _, _, _ => .error .outOfFuel
  | fuel + 1, symbol_table, chars, acc => do
    let (e, symbol_table, chars) ← parse_expr_bp fuel symbol_table chars 0
    let acc := acc ++ [e]
    let commaNext ← peeking_token chars .Comma
    if !commaNext then do
      let (_, chars) ← expect_token chars .RParen
      .ok (acc, symbol_table, chars)
    else do
      let chars ← skip_token chars
      parse_call_args_loop fuel symbol_table chars acc

/-- `Parser::parse_expr_bp` from parser.rs (the Pratt loop body is
`parse_expr_loop`). -/
def parse_expr_bp : Nat → SymbolTable → LexState → Nat → PResult
  | 0, _, _, _ => .error .outOfFuel
  | fuel + 1, symbol_table, chars, min_bp => do
    let token ← match (peek_token chars).1 with
      | .error e => .error e
      | .ok none => .error (.parse (.UnexpectedToken none))
      | .ok (some t) => pure t
    let (lhs, symbol_table, chars) ←
      match token.kind with
      | .LParen => do
          let chars ← skip_token chars
          let (inside, symbol_table, chars) ←
            parse_expr_bp fuel symbol_table chars 0
          let (_, chars) ← expect_token chars .RParen
          pure (inside, symbol_table, chars)
      | .LCurly => parse_block fuel symbol_table chars
      | .If => parse_if_statement fuel symbol_table chars
      | .While => parse_while_loop fuel symbol_table chars
      | other =>
        if other.is_node then do
          let chars ← skip_token chars
          let ast ← astNew symbol_table (.Node token)
          pure (ast, symbol_table, chars)
        else do
          let chars ← skip_token chars
          match other.prefix_bp with
          | none => .error (.parse (.UnexpectedToken (some token)))
          | some pbp => do
              let (node, symbol_table, chars) ←
                parse_expr_bp fuel symbol_table chars pbp
              let ast ← astNew symbol_table (.Prefix token node)
              pure (ast, symbol_table, chars)
    parse_expr_loop fuel symbol_table chars lhs min_bp

/-- The `while let Some(oper) = self.peek_token()?` loop of
`parse_expr_bp`: greedy postfix call application, then infix operators by
binding power. -/
def parse_expr_loop : Nat → SymbolTable → LexState → Ast → Nat → PResult
  | 0, _, _, _, _ => .error .outOfFuel
  | fuel + 1, symbol_table, chars, lhs, min_bp => do
    match (peek_token chars).1 with
    | .error e => .error e
    | .ok none => .ok (lhs, symbol_table, chars)
    | .ok (some oper) =>
      if oper.kind == .LParen then do
        let (arguments, symbol_table, chars) ←
          parse_function_call_args fuel symbol_table chars
        let lhs ← astNew symbol_table (.Call lhs arguments)
        parse_expr_loop fuel symbol_table chars lhs min_bp
      else
        match oper.kind.infix_bp with
        | none => .ok (lhs, symbol_table, chars)
        | some (infix_left_bp, infix_right_bp) =>
          if infix_left_bp < min_bp then .ok (lhs, symbol_table, chars)
          else do
            let chars ← skip_token chars
            let (rhs, symbol_table, chars) ←
              parse_expr_bp fuel symbol_table chars infix_right_bp
            let lhs ← astNew symbol_table (.Infix oper lhs rhs)
            parse_expr_loop fuel symbol_table chars lhs min_bp

end

/-- `Parser::parse` from parser.rs, parameterised by the type-inference
entry point (`DataType::Int(IntType::U64).infer(&mut ast)?` — phase E is
not under src/, so the embedding takes any inference function; the fuel is
ample for the source length). -/
def parser_parse (infer : SymbolTable → Ast → Except CompilerErr Ast)
    (string : List Char) : Except CompilerErr (Ast × SymbolTable) := do
  let symbol_table := SymbolTable.new
  let (ast, symbol_table, chars) ←
    parse_expr_bp ((string.length + 1) * 8) symbol_table string 0
  match next_token chars with
  | (.error e, _) => .error e
  | (.ok (some token), _) => .error (.parse (.UnexpectedToken (some token)))
  | (.ok none, _) => do
      let ast ← infer symbol_table ast
      .ok (ast, symbol_table)

/-! ### Definitions supporting the individual claims -/

/-- Expression parsing from a fresh symbol table (`parse_expr_bp` with
minimum binding power 0, as `Parser::parse` starts it), projected to the
syntax tree. -/
def parseExprOf (s : List Char) : Except CompilerErr Ast :=
  (parse_expr_bp ((s.length + 1) * 8) SymbolTable.new s 0).map
    (fun r => r.1)

/-- The recursion end-to-end scenario source from the spec (§8):
`fn fact(n: U64): U64 { if n == 0 { 1; } else { n * fact(n - 1); }; }
fn main() { fact(5); };`. -/
def factSource : List Char :=
  ("fn fact(n: U64): U64 \x7b if n == 0 \x7b 1; \x7d else \x7b n * " ++
   "fact(n - 1); \x7d; \x7d fn main() \x7b fact(5); \x7d;").toList

/-- Spec-side description of escape decoding (§3: "string literal (with
escape decoding: `\n \r \t \0 \\ \"` and identity for anything else)"):
each backslash-escape pair is replaced by its decoded character, every
other character is left unchanged. -/
def decodeEscapes : List Char → List Char
  | [] => []
  | ['\\'] => []
  | '\\' :: d :: rest2 => escChar d :: decodeEscapes rest2
  | c :: rest => c :: decodeEscapes rest

/-- Well-formedness of a string-literal body as the lexer guarantees it:
every backslash is followed by a character (no trailing lone backslash). -/
def escOk : List Char → Bool
  | [] => true
  | ['\\'] => false
  | '\\' :: _ :: rest2 => escOk rest2
  | _ :: rest => escOk rest

/-- Whether an operand is not the `VoidRegister` sentinel. -/
def noVoidReg : Argument → Bool
  | .VoidRegister => false
  | _ => true

/-- The opcode-validity invariant as the claim states it: no
`VoidRegister` appears in any non-`Call` opcode, and a `Call`'s
destination is `VoidRegister` only when the callee's return type is
`Void`. -/
def opValid (f : Function) : OpCode → Bool
  | .Mov dst src => noVoidReg dst && noVoidReg src
  | .Add dst src => noVoidReg dst && noVoidReg src
  | .Sub dst src => noVoidReg dst && noVoidReg src
  | .Mul dst src => noVoidReg dst && noVoidReg src
  | .Div dst src => noVoidReg dst && noVoidReg src
  | .Mod dst src => noVoidReg dst && noVoidReg src
  | .Not dst => noVoidReg dst
  | .Negate dst => noVoidReg dst
  | .Ref dst src => noVoidReg dst && noVoidReg src
  | .Deref dst src => noVoidReg dst && noVoidReg src
  | .DerefMov dst src => noVoidReg dst && noVoidReg src
  | .SetIfEqual dst lhs rhs => noVoidReg dst && noVoidReg lhs && noVoidReg rhs
  | .SetIfNotEqual dst lhs rhs => noVoidReg dst && noVoidReg lhs && noVoidReg rhs
  | .SetIfGreater dst lhs rhs => noVoidReg dst && noVoidReg lhs && noVoidReg rhs
  | .SetIfLess dst lhs rhs => noVoidReg dst && noVoidReg lhs && noVoidReg rhs
  | .SetIfGreaterOrEqual dst lhs rhs => noVoidReg dst && noVoidReg lhs && noVoidReg rhs
  | .SetIfLessOrEqual dst lhs rhs => noVoidReg dst && noVoidReg lhs && noVoidReg rhs
  | .Label _ => true
  | .Goto _ => true
  | .GotoIfZero condition _ => noVoidReg condition
  | .GotoIfNotZero condition _ => noVoidReg condition
  | .Call dst lhs _ =>
    match f.argumentDataType lhs with
    | .Function return_type _ =>
      match dst, return_type with
      | .VoidRegister, .Void => true
      | .VoidRegister, _ => false
      | _, _ => true
    | _ => true

mutual

/-- `DataType` with the signedness of every integer type flipped (widths
preserved). -/
def flipD : DataType → DataType
  | .Void => .Void
  | .Bool => .Bool
  | .Int t =>
    .Int (match t with
      | .U8 => .S8 | .U16 => .S16 | .U32 => .S32 | .U64 => .S64
      | .S8 => .U8 | .S16 => .U16 | .S32 => .U32 | .S64 => .U64)
  | .Ref inner => .Ref (flipD inner)
  | .Function r args => .Function (flipD r) (flipDList args)

/-- `flipD` over a list of types. -/
def flipDList : List DataType → List DataType
  | [] => []
  | t :: rest => flipD t :: flipDList rest

end

/-- An operand with the signedness of every integer type flipped. -/
def flipA : Argument → Argument
  | .Register id => .Register id
  | .Argument id => .Argument id
  | .Constant value data_type => .Constant value (flipD data_type)
  | .Symbol name data_type => .Symbol name (flipD data_type)
  | .ReturnValue => .ReturnValue
  | .VoidRegister => .VoidRegister

/-- A bytecode function with the signedness of every integer type
flipped. -/
def flipF (f : Function) : Function :=
  ⟨f.name, flipD f.return_type, flipDList f.register_types,
    flipDList f.argument_types⟩

/-- The concrete machine state of the C3 counterexample: the stack
pointer at 40 (so `rbp = 32` after `enter`), 3 stored at `[rbp + 16]`
and 1000 at `[rbp + 24]`. -/
def c3State : PState :=
  ⟨0, 0, 0, 0, 40, 0, fun a => if a = 48 then 3 else if a = 56 then 1000 else 0⟩

/-! ## Theorems -/

/-- Every sized data type occupies one aligned 8-byte stack slot. -/
theorem DataType.sizeAligned_eq_eight (d : DataType) (h : d.size ≠ none) :
    d.sizeAligned = 8 := by
  cases d with
  | Void => exact absurd rfl h
  | Bool => rfl
  | Int t => cases t <;> rfl
  | Ref _ => rfl
  | Function _ _ => rfl

/-- The structured embedding of the `print:` routine renders to the
source's `PRINT_CODE` text. -/
theorem renderPrint_eq_PRINT_CODE : renderPrint = PRINT_CODE := rfl

/-- A list of sized types sums to 8 bytes per entry. -/
theorem sum_sizeAligned (l : List DataType) (h : ∀ t ∈ l, t.size ≠ none) :
    (l.map DataType.sizeAligned).sum = 8 * l.length := by
  induction l with
  | nil => simp
  | cons t rest ih =>
      simp only [List.map_cons, List.sum_cons, List.length_cons,
        DataType.sizeAligned_eq_eight t (h t (by simp)),
        ih (fun x hx => h x (by simp [hx]))]
      omega

/-- With only sized argument types, `arguments_size` is 8 bytes per
argument. -/
theorem argumentsSize_sized (f : Function)
    (h : ∀ t ∈ f.argument_types, t.size ≠ none) :
    f.argumentsSize = 8 * f.argument_types.length :=
  sum_sizeAligned _ h

/-- With only sized argument types, `argument_position(i)` is `8 * i` for
`i` within bounds. -/
theorem argumentPosition_sized (f : Function) (i : Nat)
    (hi : i ≤ f.argument_types.length)
    (h : ∀ t ∈ f.argument_types, t.size ≠ none) :
    f.argumentPosition i = 8 * i := by
  unfold Function.argumentPosition
  rw [sum_sizeAligned _ (fun t ht => h t (List.take_subset i _ ht))]
  simp [List.length_take, Nat.min_eq_left hi]

/-- The caller's push for argument `i` is the entry at push index
`(return slot ? 1 : 0) + (n - 1 - i)` of the emitted push list. -/
theorem callPushList_index (rv : Bool) (args : List Argument) (i : Nat)
    (hi : i < args.length) :
    (callPushList rv args)[(if rv then 0 else 1) + (args.length - 1 - i)]?
      = some (some args[i]) := by
  have hrev : (args.reverse.map some)[args.length - 1 - i]?
      = some (some args[i]) := by
    rw [List.getElem?_map, List.getElem?_reverse (by omega)]
    have h2 : args.length - 1 - (args.length - 1 - i) = i := by omega
    rw [h2, List.getElem?_eq_getElem hi]
    rfl
  cases rv with
  | true => simpa [callPushList] using hrev
  | false =>
      have h1 : 1 + (args.length - 1 - i) = (args.length - 1 - i) + 1 := by
        omega
      simpa [callPushList, h1] using hrev

/-- C1 — counterexample.  For a void function of two `U64` arguments, the
callee emits `Argument(0)` at `[rbp + 24]` (`generate_argument`), but the
caller's push for argument 0 — the last push before `call`, since the
arguments are pushed in reverse order — lands at `[rbp + 16]`: the claimed
caller/callee agreement fails at argument 0 of a two-argument call. -/
theorem c1_caller_callee_disagree :
    generate_argument ⟨"f", .Void, [], [.Int .U64, .Int .U64]⟩ (.Argument 0)
      = .ok "qword [rbp + 24]" ∧
    callerArgOffset true 2 0 = 16 ∧
    callerArgOffset true 2 0
      ≠ calleeArgOffset ⟨"f", .Void, [], [.Int .U64, .Int .U64]⟩ 0 :=
  ⟨rfl, rfl, by decide⟩

/-- C1 — amended.  The caller pushes the return slot (if the return type
is non-`Void`) and then the arguments in reverse order, so the value
pushed for argument `i` ends up at the stack address the callee emits for
operand `Argument(n - 1 - i)` — not `Argument(i)`: caller and callee use
mutually reversed argument orders (they agree only on the middle
argument, in particular for one-argument calls). -/
theorem c1_push_lands_on_reversed_slot (f : Function) (i : Nat) (rv : Bool)
    (hi : i < f.argument_types.length)
    (h : ∀ t ∈ f.argument_types, t.size ≠ none) :
    callerArgOffset rv f.argument_types.length i
      = calleeArgOffset f (f.argument_types.length - 1 - i) := by
  unfold callerArgOffset pushedOffset calleeArgOffset
  rw [argumentsSize_sized f h, argumentPosition_sized f _ (by omega) h]
  cases rv <;> simp <;> omega

/-- C1 — witness for the amended theorem at the two-`U64` function. -/
theorem c1_push_lands_on_reversed_slot_witness :
    (∀ t ∈ [DataType.Int .U64, DataType.Int .U64], t.size ≠ none) ∧
    callerArgOffset true 2 0
      = calleeArgOffset ⟨"f", .Void, [], [.Int .U64, .Int .U64]⟩ 1 :=
  ⟨by decide,
    c1_push_lands_on_reversed_slot ⟨"f", .Void, [], [.Int .U64, .Int .U64]⟩
      0 true (by decide) (by decide)⟩

/-- C2: `NasmRegister::generate` selects the name column by the data
type's size, and the `Rax` row is `al/ax/eax/rax` as claimed — but the
`R8`–`R11` rows have the 2-byte and 4-byte columns swapped: a 2-byte
operand yields `r8d` (the 32-bit register) and a 4-byte operand `r8w`
(the 16-bit register), contradicting the claimed `r8b/r8w/r8d/r8`. -/
theorem c2_r8_columns_swapped :
    NasmRegister.generate .Rax (.Int .U8) = some "al" ∧
    NasmRegister.generate .Rax (.Int .U16) = some "ax" ∧
    NasmRegister.generate .Rax (.Int .U32) = some "eax" ∧
    NasmRegister.generate .Rax (.Int .U64) = some "rax" ∧
    NasmRegister.generate .R8 (.Int .U8) = some "r8b" ∧
    NasmRegister.generate .R8 (.Int .U16) = some "r8d" ∧
    NasmRegister.generate .R8 (.Int .U32) = some "r8w" ∧
    NasmRegister.generate .R8 (.Int .U64) = some "r8" ∧
    NasmRegister.generate .R9 (.Int .U16) = some "r9d" ∧
    NasmRegister.generate .R10 (.Int .U16) = some "r10d" ∧
    NasmRegister.generate .R11 (.Int .U16) = some "r11d" := by
  and_intros <;> rfl

/-- C3 — counterexample.  Running the emitted `print:` routine from a
state with 3 at `[rbp + 16]` and 1000 at `[rbp + 24]` reaches the
syscall with `rax = 1`, `rdi = 1`, buffer `rsi = 1000` (loaded from
`[rbp + 24]`) and byte count `rdx = 3` (loaded from `[rbp + 16]`) — the
claim predicts the byte count 1000 from `[rbp + 24]`, but the write's
count is 3. -/
theorem c3_count_is_at_16 :
    (runToSyscall printInstrs c3State).bind SyscallObs.asWrite
      = some ⟨1, 1000, 3⟩ ∧
    c3State.mem (c3State.rsp - 8 + 24) = 1000 ∧
    c3State.mem (c3State.rsp - 8 + 16) = 3 ∧
    (3 : Nat) ≠ 1000 :=
  ⟨rfl, rfl, rfl, by omega⟩

/-- C3 — amended.  The `print:` routine performs a write system call
(`rax = 1`) to file descriptor 1 whose buffer address is loaded from
`[rbp + 24]` and whose byte count is loaded from `[rbp + 16]` (with
`rbp` the base pointer `enter` establishes): it writes `[rbp+16]` bytes
starting from the address stored at `[rbp+24]`. -/
theorem c3_print_write (st : PState) :
    (runToSyscall printInstrs st).bind SyscallObs.asWrite
      = some ⟨1, st.mem (st.rsp - 8 + 24), st.mem (st.rsp - 8 + 16)⟩ := by
  have h24 : st.rsp - 8 + 24 ≠ st.rsp - 8 := by omega
  have h16 : st.rsp - 8 + 16 ≠ st.rsp - 8 := by omega
  simp [runToSyscall, printInstrs, PState.setReg, SyscallObs.asWrite, h24, h16]

/-- C4 — counterexample.  `Parser::parse` on the spec's recursion
scenario source (two consecutive top-level `fn` declarations) fails with
`UnexpectedToken` at the very first token: `parse_expr_bp` has no case
for the `fn` keyword, so the program does not compile (here with the
identity stand-in for the type-inference phase, which is never
reached). -/
theorem c4_fact_program_rejected :
    parser_parse (fun _ a => .ok a) factSource
      = .error (.parse (.UnexpectedToken (some ⟨['f', 'n'], .Function⟩))) :=
  rfl

/-- C4 — amended.  `Parser::parse` rejects the spec's recursion scenario
source with `UnexpectedToken` at the leading `fn` token, for every
type-inference phase (the parse error occurs before inference and before
any code generation, so no executable — let alone exit status 120 — is
produced). -/
theorem c4_fact_program_rejected_any_infer
    (infer : SymbolTable → Ast → Except CompilerErr Ast) :
    parser_parse infer factSource
      = .error (.parse (.UnexpectedToken (some ⟨['f', 'n'], .Function⟩))) :=
  rfl

/-- C5: the Pratt binding powers are comparisons (1,2), additive (3,4),
multiplicative (5,6), prefix 7, and the five claimed parses hold:
`1 + 2 * 3` ↦ `1 + (2 * 3)`, `a == b + c` ↦ `a == (b + c)`, `- - x` ↦
two nested prefix negations, `!a == b` ↦ `(!a) == b`, and `a - b - c` ↦
`(a - b) - c` (left-associative). -/
theorem c5_pratt_binding_powers :
    TokenKind.infix_bp .Equals = some (1, 2) ∧
    TokenKind.infix_bp .NotEquals = some (1, 2) ∧
    TokenKind.infix_bp .Greater = some (1, 2) ∧
    TokenKind.infix_bp .Less = some (1, 2) ∧
    TokenKind.infix_bp .GreaterOrEqual = some (1, 2) ∧
    TokenKind.infix_bp .LessOrEqual = some (1, 2) ∧
    TokenKind.infix_bp .Add = some (3, 4) ∧
    TokenKind.infix_bp .Sub = some (3, 4) ∧
    TokenKind.infix_bp .Mul = some (5, 6) ∧
    TokenKind.infix_bp .Div = some (5, 6) ∧
    TokenKind.infix_bp .Mod = some (5, 6) ∧
    TokenKind.prefix_bp .Not = some 7 ∧
    TokenKind.prefix_bp .Hash = some 7 ∧
    TokenKind.prefix_bp .AtSymbol = some 7 ∧
    TokenKind.prefix_bp .Sub = some 7 ∧
    parseExprOf "1 + 2 * 3".toList
      = .ok (.Infix ⟨['+'], .Add⟩ (.Node ⟨['1'], .Number 1⟩)
          (.Infix ⟨['*'], .Mul⟩ (.Node ⟨['2'], .Number 2⟩)
            (.Node ⟨['3'], .Number 3⟩))) ∧
    parseExprOf "a == b + c".toList
      = .ok (.Infix ⟨['=', '='], .Equals⟩ (.Node ⟨['a'], .Ident⟩)
          (.Infix ⟨['+'], .Add⟩ (.Node ⟨['b'], .Ident⟩)
            (.Node ⟨['c'], .Ident⟩))) ∧
    parseExprOf "- - x".toList
      = .ok (.Prefix ⟨['-'], .Sub⟩ (.Prefix ⟨['-'], .Sub⟩
          (.Node ⟨['x'], .Ident⟩))) ∧
    parseExprOf "!a == b".toList
      = .ok (.Infix ⟨['=', '='], .Equals⟩
          (.Prefix ⟨['!'], .Not⟩ (.Node ⟨['a'], .Ident⟩))
          (.Node ⟨['b'], .Ident⟩)) ∧
    parseExprOf "a - b - c".toList
      = .ok (.Infix ⟨['-'], .Sub⟩
          (.Infix ⟨['-'], .Sub⟩ (.Node ⟨['a'], .Ident⟩)
            (.Node ⟨['b'], .Ident⟩))
          (.Node ⟨['c'], .Ident⟩)) := by
  and_intros <;> rfl

/-- In the `Except` emitter monad, a bind avoids an error value when both
sides do. -/
theorem bind_ne_voidArm {α β : Type} (x : Except EmitErr α)
    (k : α → Except EmitErr β) (hx : x ≠ .error .voidRegisterArm)
    (hk : ∀ a, k a ≠ .error .voidRegisterArm) :
    (x >>= k) ≠ .error .voidRegisterArm := by
  cases x with
  | error e => simpa [Bind.bind, Except.bind] using hx
  | ok a => simpa [Bind.bind, Except.bind] using hk a

/-- Lifting a partial size computation can only abort with `badSize`. -/
theorem ofOption_badSize_ne_voidArm {α : Type} (o : Option α) :
    ofOption o .badSize ≠ .error .voidRegisterArm := by
  cases o <;> simp [ofOption]

/-- `generate_argument` reaches its `VoidRegister` arm only on the
`VoidRegister` operand. -/
theorem generate_argument_ne_voidArm (f : Function) (a : Argument)
    (h : noVoidReg a = true) :
    generate_argument f a ≠ .error .voidRegisterArm := by
  cases a with
  | Register id =>
      exact bind_ne_voidArm _ _ (ofOption_badSize_ne_voidArm _) (by simp)
  | Argument id =>
      exact bind_ne_voidArm _ _ (ofOption_badSize_ne_voidArm _) (by simp)
  | ReturnValue =>
      exact bind_ne_voidArm _ _ (ofOption_badSize_ne_voidArm _) (by simp)
  | Constant v t => simp [generate_argument]
  | Symbol n t => simp [generate_argument]
  | VoidRegister => simp [noVoidReg] at h

/-- `generate_infix` never reaches the `VoidRegister` arm when neither
operand is the sentinel. -/
theorem generate_infix_ne_voidArm (f : Function) (dst src : Argument)
    (operation : String) (hd : noVoidReg dst = true)
    (hs : noVoidReg src = true) :
    generate_infix f dst src operation ≠ .error .voidRegisterArm := by
  unfold generate_infix
  refine bind_ne_voidArm _ _ (ofOption_badSize_ne_voidArm _) fun rax => ?_
  refine bind_ne_voidArm _ _ (generate_argument_ne_voidArm f src hs) fun s => ?_
  refine bind_ne_voidArm _ _ (generate_argument_ne_voidArm f dst hd) fun d => ?_
  split <;> simp

/-- `generate_comparison` never reaches the `VoidRegister` arm when none
of its operands is the sentinel. -/
theorem generate_comparison_ne_voidArm (f : Function) (dst lhs rhs : Argument)
    (operation : String) (hd : noVoidReg dst = true)
    (hl : noVoidReg lhs = true) (hr : noVoidReg rhs = true) :
    generate_comparison f dst lhs rhs operation ≠ .error .voidRegisterArm := by
  unfold generate_comparison
  split
  · refine bind_ne_voidArm _ _ (ofOption_badSize_ne_voidArm _) fun rax => ?_
    refine bind_ne_voidArm _ _ (generate_argument_ne_voidArm f lhs hl) fun l => ?_
    refine bind_ne_voidArm _ _ (generate_argument_ne_voidArm f rhs hr) fun r => ?_
    refine bind_ne_voidArm _ _ (generate_argument_ne_voidArm f dst hd) fun d => ?_
    simp
  · simp

/-- The argument-push loop never reaches the `VoidRegister` arm: a
`VoidRegister` entry carries the `Void` data type, whose size fails in
`NasmRegister::generate` before `generate_argument` is consulted. -/
theorem pushArgs_ne_voidArm (f : Function) (l : List Argument) :
    pushArgs f l ≠ .error .voidRegisterArm := by
  induction l with
  | nil => simp [pushArgs]
  | cons a rest ih =>
      by_cases hv : noVoidReg a = true
      · unfold pushArgs
        refine bind_ne_voidArm _ _ (ofOption_badSize_ne_voidArm _) fun rax => ?_
        refine bind_ne_voidArm _ _ (generate_argument_ne_voidArm f a hv)
          fun s => ?_
        refine bind_ne_voidArm _ _ ih fun r => ?_
        simp
      · have hva : a = .VoidRegister := by
          cases a <;> simp [noVoidReg] at hv ⊢
        subst hva
        have hshort : pushArgs f (.VoidRegister :: rest) = .error .badSize :=
          rfl
        rw [hshort]
        simp

/-- C8: for every opcode satisfying the opcode-validity invariant (no
`VoidRegister` in any non-`Call` opcode, and a `Call`'s destination is
`VoidRegister` only when the callee's return type is `Void`), the emitter
never evaluates the `VoidRegister` arm of `generate_argument`: the `Call`
case skips the destination operand for `Void` return types, and a
`VoidRegister` among a call's operands aborts on the undefined size of
`Void` before `generate_argument` is consulted. -/
theorem c8_voidRegister_arm_dead (f : Function) (op : OpCode)
    (h : opValid f op = true) :
    generate_opcode f op ≠ .error .voidRegisterArm := by
  cases op with
  | Mov dst src =>
      simp only [opValid, Bool.and_eq_true] at h
      simp only [generate_opcode]
      split
      · simp
      · exact generate_infix_ne_voidArm f dst src _ h.1 h.2
  | Add dst src =>
      simp only [opValid, Bool.and_eq_true] at h
      simp only [generate_opcode]
      exact generate_infix_ne_voidArm f dst src _ h.1 h.2
  | Sub dst src =>
      simp only [opValid, Bool.and_eq_true] at h
      simp only [generate_opcode]
      exact generate_infix_ne_voidArm f dst src _ h.1 h.2
  | Mul dst src =>
      simp only [opValid, Bool.and_eq_true] at h
      simp only [generate_opcode]
      refine bind_ne_voidArm _ _ (ofOption_badSize_ne_voidArm _) fun rax => ?_
      refine bind_ne_voidArm _ _ (ofOption_badSize_ne_voidArm _) fun rbx => ?_
      refine bind_ne_voidArm _ _ (generate_argument_ne_voidArm f src h.2)
        fun s => ?_
      refine bind_ne_voidArm _ _ (generate_argument_ne_voidArm f dst h.1)
        fun d => ?_
      simp
  | Div dst src =>
      simp only [opValid, Bool.and_eq_true] at h
      simp only [generate_opcode]
      refine bind_ne_voidArm _ _ (ofOption_badSize_ne_voidArm _) fun rax => ?_
      refine bind_ne_voidArm _ _ (ofOption_badSize_ne_voidArm _) fun rbx => ?_
      refine bind_ne_voidArm _ _ (ofOption_badSize_ne_voidArm _) fun rdx => ?_
      refine bind_ne_voidArm _ _ (generate_argument_ne_voidArm f src h.2)
        fun s => ?_
      refine bind_ne_voidArm _ _ (generate_argument_ne_voidArm f dst h.1)
        fun d => ?_
      simp
  | Mod dst src =>
      simp only [opValid, Bool.and_eq_true] at h
      simp only [generate_opcode]
      refine bind_ne_voidArm _ _ (ofOption_badSize_ne_voidArm _) fun rax => ?_
      refine bind_ne_voidArm _ _ (ofOption_badSize_ne_voidArm _) fun rbx => ?_
      refine bind_ne_voidArm _ _ (ofOption_badSize_ne_voidArm _) fun rdx => ?_
      refine bind_ne_voidArm _ _ (generate_argument_ne_voidArm f src h.2)
        fun s => ?_
      refine bind_ne_voidArm _ _ (generate_argument_ne_voidArm f dst h.1)
        fun d => ?_
      simp
  | Not dst =>
      simp only [opValid] at h
      simp only [generate_opcode]
      refine bind_ne_voidArm _ _ (generate_argument_ne_voidArm f dst h)
        fun d => ?_
      simp
  | Negate dst =>
      simp only [opValid] at h
      simp only [generate_opcode]
      refine bind_ne_voidArm _ _ (generate_argument_ne_voidArm f dst h)
        fun d => ?_
      simp
  | Ref dst src =>
      simp only [opValid, Bool.and_eq_true] at h
      simp only [generate_opcode]
      refine bind_ne_voidArm _ _ (ofOption_badSize_ne_voidArm _) fun rax => ?_
      refine bind_ne_voidArm _ _ (generate_argument_ne_voidArm f src h.2)
        fun s => ?_
      refine bind_ne_voidArm _ _ (generate_argument_ne_voidArm f dst h.1)
        fun d => ?_
      simp
  | Deref dst src =>
      simp only [opValid, Bool.and_eq_true] at h
      simp only [generate_opcode]
      refine bind_ne_voidArm _ _ (ofOption_badSize_ne_voidArm _) fun rax => ?_
      refine bind_ne_voidArm _ _ (ofOption_badSize_ne_voidArm _) fun rbx => ?_
      refine bind_ne_voidArm _ _ (generate_argument_ne_voidArm f src h.2)
        fun s => ?_
      refine bind_ne_voidArm _ _ (generate_argument_ne_voidArm f dst h.1)
        fun d => ?_
      simp
  | DerefMov dst src =>
      simp only [opValid, Bool.and_eq_true] at h
      simp only [generate_opcode]
      refine bind_ne_voidArm _ _ (ofOption_badSize_ne_voidArm _) fun rax => ?_
      refine bind_ne_voidArm _ _ (ofOption_badSize_ne_voidArm _) fun rbx => ?_
      refine bind_ne_voidArm _ _ (generate_argument_ne_voidArm f src h.2)
        fun s => ?_
      refine bind_ne_voidArm _ _ (generate_argument_ne_voidArm f dst h.1)
        fun d => ?_
      simp
  | SetIfEqual dst lhs rhs =>
      simp only [opValid, Bool.and_eq_true] at h
      simp only [generate_opcode]
      exact generate_comparison_ne_voidArm f dst lhs rhs _ h.1.1 h.1.2 h.2
  | SetIfNotEqual dst lhs rhs =>
      simp only [opValid, Bool.and_eq_true] at h
      simp only [generate_opcode]
      exact generate_comparison_ne_voidArm f dst lhs rhs _ h.1.1 h.1.2 h.2
  | SetIfGreater dst lhs rhs =>
      simp only [opValid, Bool.and_eq_true] at h
      simp only [generate_opcode]
      exact generate_comparison_ne_voidArm f dst lhs rhs _ h.1.1 h.1.2 h.2
  | SetIfLess dst lhs rhs =>
      simp only [opValid, Bool.and_eq_true] at h
      simp only [generate_opcode]
      exact generate_comparison_ne_voidArm f dst lhs rhs _ h.1.1 h.1.2 h.2
  | SetIfGreaterOrEqual dst lhs rhs =>
      simp only [opValid, Bool.and_eq_true] at h
      simp only [generate_opcode]
      exact generate_comparison_ne_voidArm f dst lhs rhs _ h.1.1 h.1.2 h.2
  | SetIfLessOrEqual dst lhs rhs =>
      simp only [opValid, Bool.and_eq_true] at h
      simp only [generate_opcode]
      exact generate_comparison_ne_voidArm f dst lhs rhs _ h.1.1 h.1.2 h.2
  | Label label_id => simp [generate_opcode]
  | Goto label_id => simp [generate_opcode]
  | GotoIfZero condition label_id =>
      simp only [opValid] at h
      simp only [generate_opcode]
      refine bind_ne_voidArm _ _ (ofOption_badSize_ne_voidArm _) fun rax => ?_
      refine bind_ne_voidArm _ _ (generate_argument_ne_voidArm f condition h)
        fun c => ?_
      simp
  | GotoIfNotZero condition label_id =>
      simp only [opValid] at h
      simp only [generate_opcode]
      refine bind_ne_voidArm _ _ (ofOption_badSize_ne_voidArm _) fun rax => ?_
      refine bind_ne_voidArm _ _ (generate_argument_ne_voidArm f condition h)
        fun c => ?_
      simp
  | Call dst lhs arguments =>
      simp only [generate_opcode]
      cases hdt : f.argumentDataType lhs with
      | Function return_type argTs =>
        simp only [hdt, opValid] at h ⊢
        have hlhs : noVoidReg lhs = true := by
          cases lhs <;>
            first
              | rfl
              | (simp [Function.argumentDataType] at hdt)
        refine bind_ne_voidArm _ _ (generate_argument_ne_voidArm f lhs hlhs)
          fun lhs_c => ?_
        refine bind_ne_voidArm _ _ ?_ fun dstPart => ?_
        · cases return_type with
          | Void => simp
          | Bool =>
              have hdst : noVoidReg dst = true := by
                cases dst <;> simp_all [noVoidReg]
              refine bind_ne_voidArm _ _
                (generate_argument_ne_voidArm f dst hdst) fun d => ?_
              simp
          | Int t =>
              have hdst : noVoidReg dst = true := by
                cases dst <;> simp_all [noVoidReg]
              refine bind_ne_voidArm _ _
                (generate_argument_ne_voidArm f dst hdst) fun d => ?_
              simp
          | Ref inner =>
              have hdst : noVoidReg dst = true := by
                cases dst <;> simp_all [noVoidReg]
              refine bind_ne_voidArm _ _
                (generate_argument_ne_voidArm f dst hdst) fun d => ?_
              simp
          | Function r as =>
              have hdst : noVoidReg dst = true := by
                cases dst <;> simp_all [noVoidReg]
              refine bind_ne_voidArm _ _
                (generate_argument_ne_voidArm f dst hdst) fun d => ?_
              simp
        · refine bind_ne_voidArm _ _ (pushArgs_ne_voidArm f _) fun at' => ?_
          refine bind_ne_voidArm _ _ ?_ fun callText => ?_
          · cases lhs <;>
              first
                | exact bind_ne_voidArm _ _ (ofOption_badSize_ne_voidArm _)
                    (fun rax => by simp)
                | simp
          · simp
      | Void => simp only [hdt]; simp
      | Bool => simp only [hdt]; simp
      | Int t => simp only [hdt]; simp
      | Ref inner => simp only [hdt]; simp

/-- C8 — witness: a concrete valid opcode on a concrete function, with the
invariant discharged by evaluation. -/
theorem c8_voidRegister_arm_dead_witness :
    opValid ⟨"main", .Void, [.Int .U64], []⟩
        (.Add (.Register 0) (.Constant 1 (.Int .U64))) = true ∧
    generate_opcode ⟨"main", .Void, [.Int .U64], []⟩
        (.Add (.Register 0) (.Constant 1 (.Int .U64)))
      ≠ .error .voidRegisterArm :=
  ⟨rfl, c8_voidRegister_arm_dead _ _ rfl⟩

/-- An ASCII digit is not ASCII whitespace. -/
theorem not_ws_of_digit (c : Char) (h : isAsciiDigit c = true) :
    isAsciiWhitespace c = false := by
  simp only [isAsciiDigit, Bool.and_eq_true, decide_eq_true_eq] at h
  simp only [isAsciiWhitespace, Bool.or_eq_false_iff, beq_eq_false_iff_ne,
    ne_eq]
  omega

/-- An ASCII digit is neither ASCII alphabetic nor an underscore. -/
theorem not_alpha_of_digit (c : Char) (h : isAsciiDigit c = true) :
    (isAsciiAlphabetic c || c == '_') = false := by
  simp only [isAsciiDigit, Bool.and_eq_true, decide_eq_true_eq] at h
  have hu : c ≠ '_' := by
    intro hc
    subst hc
    simp only [show ('_' : Char).toNat = 95 from rfl] at h
    omega
  have h1 : isAsciiAlphabetic c = false := by
    simp only [isAsciiAlphabetic, Bool.or_eq_false_iff, Bool.and_eq_false_iff,
      decide_eq_false_iff_not, not_le]
    omega
  simp [h1, hu]

/-- The digit scan consumes exactly a maximal digit run. -/
theorem scanTake_digits (digits rest : List Char)
    (hall : ∀ c ∈ digits, isAsciiDigit c = true)
    (hmax : ∀ c, rest.head? = some c → isAsciiDigit c = false) :
    scanTake isAsciiDigit (digits ++ rest) = (digits, rest) := by
  induction digits with
  | nil =>
      cases rest with
      | nil => rfl
      | cons r t => simp [scanTake, hmax r rfl]
  | cons d ds ih =>
      simp [scanTake, hall d (by simp),
        ih (fun c hc => hall c (by simp [hc]))]

/-- C9: on a maximal digit run the lexer produces a `Number` token whose
value is the run parsed as unsigned 64-bit decimal, and fails with the
`IntegerOverflow` error kind exactly when the value exceeds the unsigned
64-bit range. -/
theorem c9_number_token (digits rest : List Char) (hne : digits ≠ [])
    (hall : ∀ c ∈ digits, isAsciiDigit c = true)
    (hmax : ∀ c, rest.head? = some c → isAsciiDigit c = false) :
    next_token (digits ++ rest)
      = if digitsVal digits < 2 ^ 64
        then (.ok (some ⟨digits, .Number (digitsVal digits)⟩), rest)
        else (.error (.IntegerOverflow digits), rest) := by
  cases digits with
  | nil => exact absurd rfl hne
  | cons d ds =>
      have hd : isAsciiDigit d = true := hall d (by simp)
      have hws : isAsciiWhitespace d = false := not_ws_of_digit d hd
      have halpha : (isAsciiAlphabetic d || d == '_') = false :=
        not_alpha_of_digit d hd
      have hdrop : ((d :: ds) ++ rest).dropWhile isAsciiWhitespace
          = d :: (ds ++ rest) := by
        simp [List.dropWhile_cons, hws]
      have hscan : scanTake isAsciiDigit ((d :: ds) ++ rest)
          = (d :: ds, rest) := scanTake_digits _ _ hall hmax
      unfold next_token
      rw [hdrop]
      dsimp only
      rw [halpha]
      simp only [Bool.false_eq_true, if_false, hd, if_true]
      rw [show d :: (ds ++ rest) = (d :: ds) ++ rest from rfl, hscan]
      unfold u64Parse
      by_cases hv : digitsVal (d :: ds) < 2 ^ 64
      · rw [if_pos hv, if_pos hv]
      · rw [if_neg hv, if_neg hv]

/-- C9 — witness: the run `42` followed by `+` lexes to `Number 42`. -/
theorem c9_number_token_witness :
    (['4', '2'] : List Char) ≠ [] ∧
    next_token (['4', '2'] ++ ['+'])
      = (.ok (some ⟨['4', '2'], .Number 42⟩), ['+']) := by
  refine ⟨by simp, ?_⟩
  have h := c9_number_token ['4', '2'] ['+'] (by simp) (by decide)
    (by intro c hc; simp at hc; subst hc; rfl)
  rw [if_pos (by decide)] at h
  exact h

/-- Escape decoding never enlarges a character: the decoded character is
the escaped one or a one-byte control character. -/
theorem utf8Size_escChar_le (c : Char) :
    (escChar c).utf8Size ≤ 1 + c.utf8Size := by
  unfold escChar
  split <;> first | decide | omega

/-- UTF-8 byte length distributes over append. -/
theorem utf8Len_append (l l' : List Char) :
    utf8Len (l ++ l') = utf8Len l + utf8Len l' := by
  simp [utf8Len]

/-- A nonempty character list has positive byte length. -/
theorem utf8Len_pos (c : Char) (t : List Char) : 0 < utf8Len (c :: t) := by
  have := Char.utf8Size_pos c
  simp [utf8Len]
  omega

/-- Cutting at the byte length of a list prefix recovers the prefix. -/
theorem truncAt_append (l l' : List Char) :
    truncAt (l ++ l') (utf8Len l) = some l := by
  induction l with
  | nil => simp [utf8Len, truncAt]
  | cons c cs ih =>
      have hpos := Char.utf8Size_pos c
      have hlen : utf8Len (c :: cs) = c.utf8Size + utf8Len cs := by
        simp [utf8Len]
      obtain ⟨m, hm⟩ : ∃ m, utf8Len (c :: cs) = m + 1 :=
        ⟨utf8Len (c :: cs) - 1, by omega⟩
      rw [hm]
      show (if c.utf8Size ≤ m + 1
        then (truncAt (cs ++ l') (m + 1 - c.utf8Size)).map (c :: ·)
        else none) = some (c :: cs)
      rw [if_pos (by omega)]
      have harg : m + 1 - c.utf8Size = utf8Len cs := by omega
      rw [harg, ih]
      rfl

/-- `String::truncate` is a no-op at or beyond the byte length. -/
theorem strTruncate_noop (l : List Char) (n : Nat) (h : utf8Len l ≤ n) :
    strTruncate l n = some l := by
  simp [strTruncate, h]

/-- `String::truncate` at the byte length of a proper prefix recovers the
prefix. -/
theorem strTruncate_front (l l' : List Char) (h : l' ≠ []) :
    strTruncate (l ++ l') (utf8Len l) = some l := by
  have hpos : 0 < utf8Len l' := by
    cases l' with
    | nil => exact absurd rfl h
    | cons c t => exact utf8Len_pos c t
  unfold strTruncate
  rw [if_neg (by rw [utf8Len_append]; omega)]
  exact truncAt_append l l'

/-- `escOk` steps over a non-backslash character. -/
theorem escOk_cons_ne (c : Char) (rest : List Char) (hc : c ≠ '\\') :
    escOk (c :: rest) = escOk rest := by
  rw [escOk.eq_def]
  split <;> simp_all

/-- `decodeEscapes` keeps a non-backslash character. -/
theorem decodeEscapes_cons_ne (c : Char) (rest : List Char) (hc : c ≠ '\\') :
    decodeEscapes (c :: rest) = c :: decodeEscapes rest := by
  rw [decodeEscapes.eq_def]
  split <;> simp_all

/-- Once owning, the `parse_string` loop appends the decoded remainder:
truncation is a no-op because the decoded text is never longer (in bytes)
than the consumed input. -/
theorem parseStringLoop_owned (suffix : List Char) :
    ∀ (o : List Char) (pos : Nat), escOk suffix = true → utf8Len o ≤ pos →
    parseStringLoop (.Owned o) (charIndicesFrom pos suffix)
      = some (.Owned (o ++ decodeEscapes suffix)) := by
  induction suffix using escOk.induct with
  | case1 =>
      intro o pos _ _
      simp [parseStringLoop, charIndicesFrom, decodeEscapes]
  | case2 =>
      intro o pos hesc _
      simp [escOk] at hesc
  | case3 d rest2 ih =>
      intro o pos hesc hlen
      have hesc2 : escOk rest2 = true := by simpa [escOk] using hesc
      show parseStringLoop (.Owned o)
        ((pos, '\\') :: (pos + 1, d) ::
          charIndicesFrom (pos + 1 + d.utf8Size) rest2) = _
      simp only [parseStringLoop]
      rw [if_neg (by simp)]
      rw [show (Cow.Owned o).view = o from rfl,
        strTruncate_noop o pos hlen]
      dsimp only
      have hsingle : utf8Len [escChar d] = (escChar d).utf8Size := by
        simp [utf8Len]
      have hle := utf8Size_escChar_le d
      have hbound : utf8Len (o ++ [escChar d]) ≤ pos + 1 + d.utf8Size := by
        rw [utf8Len_append, hsingle]
        omega
      rw [ih (o ++ [escChar d]) (pos + 1 + d.utf8Size) hesc2 hbound]
      simp [decodeEscapes]
  | case4 c rest h1 h2 ih =>
      intro o pos hesc hlen
      have hc : c ≠ '\\' := by
        intro hcc
        cases rest with
        | nil => exact h1 hcc rfl
        | cons e r2 => exact h2 e r2 hcc rfl
      have hesc' : escOk rest = true := by
        rwa [escOk_cons_ne c rest hc] at hesc
      show parseStringLoop (.Owned o)
        ((pos, c) :: charIndicesFrom (pos + c.utf8Size) rest) = _
      simp only [parseStringLoop]
      rw [if_pos (by simp [hc])]
      have hsingle : utf8Len [c] = c.utf8Size := by simp [utf8Len]
      have hbound : utf8Len (o ++ [c]) ≤ pos + c.utf8Size := by
        rw [utf8Len_append, hsingle]
        omega
      rw [ih (o ++ [c]) (pos + c.utf8Size) hesc' hbound,
        decodeEscapes_cons_ne c rest hc]
      simp

/-- While still borrowing, the `parse_string` loop keeps the borrow on a
backslash-free remainder and switches to an owned decoded copy at the
first backslash (truncating the borrowed view to the processed front,
which is exact because the front is backslash-free). -/
theorem parseStringLoop_borrowed (suffix : List Char) :
    ∀ front : List Char, escOk suffix = true →
    front.contains '\\' = false →
    parseStringLoop (.Borrowed (front ++ suffix))
        (charIndicesFrom (utf8Len front) suffix)
      = some (if suffix.contains '\\'
          then Cow.Owned (front ++ decodeEscapes suffix)
          else Cow.Borrowed (front ++ suffix)) := by
  induction suffix using escOk.induct with
  | case1 =>
      intro front _ _
      simp [parseStringLoop, charIndicesFrom]
  | case2 =>
      intro front hesc _
      simp [escOk] at hesc
  | case3 d rest2 ih =>
      intro front hesc hfront
      have hesc2 : escOk rest2 = true := by simpa [escOk] using hesc
      show parseStringLoop (.Borrowed (front ++ '\\' :: d :: rest2))
        ((utf8Len front, '\\') :: (utf8Len front + 1, d) ::
          charIndicesFrom (utf8Len front + 1 + d.utf8Size) rest2) = _
      simp only [parseStringLoop]
      rw [if_neg (by simp)]
      rw [show (Cow.Borrowed (front ++ '\\' :: d :: rest2)).view
          = front ++ '\\' :: d :: rest2 from rfl]
      rw [strTruncate_front front ('\\' :: d :: rest2) (by simp)]
      dsimp only
      have hsingle : utf8Len [escChar d] = (escChar d).utf8Size := by
        simp [utf8Len]
      have hle := utf8Size_escChar_le d
      have hbound : utf8Len (front ++ [escChar d])
          ≤ utf8Len front + 1 + d.utf8Size := by
        rw [utf8Len_append, hsingle]
        omega
      rw [parseStringLoop_owned rest2 (front ++ [escChar d])
        (utf8Len front + 1 + d.utf8Size) hesc2 hbound]
      rw [if_pos (by simp)]
      simp [decodeEscapes]
  | case4 c rest h1 h2 ih =>
      intro front hesc hfront
      have hc : c ≠ '\\' := by
        intro hcc
        cases rest with
        | nil => exact h1 hcc rfl
        | cons e r2 => exact h2 e r2 hcc rfl
      have hesc' : escOk rest = true := by
        rwa [escOk_cons_ne c rest hc] at hesc
      have hb : ('\\' == c) = false := by
        simp only [beq_eq_false_iff_ne, ne_eq]
        exact fun h => hc h.symm
      have hb2 : (c == '\\') = false := by
        simp only [beq_eq_false_iff_ne, ne_eq]
        exact hc
      have hfront' : (front ++ [c]).contains '\\' = false := by
        simp
        exact ⟨by simpa using hfront, fun h => hc h.symm⟩
      show parseStringLoop (.Borrowed (front ++ c :: rest))
        ((utf8Len front, c) ::
          charIndicesFrom (utf8Len front + c.utf8Size) rest) = _
      simp only [parseStringLoop]
      rw [if_pos (by simp [hc])]
      have hassoc : front ++ c :: rest = (front ++ [c]) ++ rest := by simp
      have hpos : utf8Len front + c.utf8Size = utf8Len (front ++ [c]) := by
        rw [utf8Len_append]
        simp [utf8Len]
      rw [hassoc, hpos, ih (front ++ [c]) hesc' hfront']
      have hcont : (c :: rest).contains '\\' = rest.contains '\\' := by
        simp only [List.contains_cons, hb, hb2, Bool.false_or, Bool.or_false]
      rw [hcont, decodeEscapes_cons_ne c rest hc]
      have hassoc2 : front ++ c :: decodeEscapes rest
          = (front ++ [c]) ++ decodeEscapes rest := by simp
      rw [hassoc2]

/-- An escape-free body decodes to itself. -/
theorem decodeEscapes_id (l : List Char) (h : l.contains '\\' = false) :
    decodeEscapes l = l := by
  induction l with
  | nil => rfl
  | cons c t ih =>
      have hc : c ≠ '\\' := by
        intro hcc
        subst hcc
        simp [List.contains_cons] at h
      have ht : t.contains '\\' = false := by
        simp only [List.contains_cons, Bool.or_eq_false_iff] at h
        exact h.2
      rw [decodeEscapes_cons_ne c t hc, ih ht]

/-- C7: on every well-formed string-literal body (each backslash followed
by a character, as the lexer guarantees), `parse_string` replaces each
backslash-escape pair by its decoded character and leaves all other
characters unchanged, and it returns a borrowed (non-allocating) view of
the input exactly when the input contains no backslash. -/
theorem c7_parse_string_decodes (body : List Char)
    (hesc : escOk body = true) :
    parse_string body
      = some (if body.contains '\\'
          then Cow.Owned (decodeEscapes body)
          else Cow.Borrowed body) ∧
    (body.contains '\\' = false → decodeEscapes body = body) := by
  constructor
  · simpa [parse_string] using
      parseStringLoop_borrowed body [] hesc rfl
  · exact decodeEscapes_id body

/-- C7 — witness: the body `a\nb` (with a backslash-n escape) is well
formed, decodes the escape to a newline, and allocates (owned result);
the escape-free body `ab` stays borrowed. -/
theorem c7_parse_string_decodes_witness :
    escOk ['a', '\\', 'n', 'b'] = true ∧
    parse_string ['a', '\\', 'n', 'b'] = some (.Owned ['a', '\n', 'b']) ∧
    parse_string ['a', 'b'] = some (.Borrowed ['a', 'b']) := by
  refine ⟨rfl, ?_, ?_⟩
  · exact (c7_parse_string_decodes ['a', '\\', 'n', 'b'] rfl).1
  · exact (c7_parse_string_decodes ['a', 'b'] rfl).1

/-- Flipping signedness preserves `size()`. -/
theorem flipD_size (d : DataType) : (flipD d).size = d.size := by
  cases d with
  | Void => rfl
  | Bool => rfl
  | Int t => cases t <;> rfl
  | Ref inner => rfl
  | Function r args => rfl

/-- Flipping signedness preserves `size_aligned()`. -/
theorem flipD_sizeAligned (d : DataType) :
    (flipD d).sizeAligned = d.sizeAligned := by
  unfold DataType.sizeAligned
  rw [flipD_size]

/-- `flipDList` is the map of `flipD`. -/
theorem flipDList_eq_map (l : List DataType) : flipDList l = l.map flipD := by
  induction l with
  | nil => rfl
  | cons t rest ih => simp [flipDList, ih]

/-- Indexing into a flipped type list flips the indexed type. -/
theorem flipDList_getD (l : List DataType) (i : Nat) :
    (flipDList l).getD i .Void = flipD (l.getD i .Void) := by
  induction l generalizing i with
  | nil => cases i <;> rfl
  | cons t rest ih =>
      cases i with
      | zero => rfl
      | succ n => simpa [flipDList] using ih n

/-- Aligned sizes of a flipped type list are unchanged. -/
theorem flipDList_sizes (l : List DataType) :
    (flipDList l).map DataType.sizeAligned = l.map DataType.sizeAligned := by
  induction l with
  | nil => rfl
  | cons t rest ih => simp [flipDList, flipD_sizeAligned, ih]

/-- The width keyword ignores signedness. -/
theorem data_type_generate_flipD (d : DataType) :
    data_type_generate (flipD d) = data_type_generate d := by
  unfold data_type_generate
  rw [flipD_size]

/-- Register-name selection ignores signedness. -/
theorem nasmGenerate_flipD (r : NasmRegister) (d : DataType) :
    r.generate (flipD d) = r.generate d := by
  unfold NasmRegister.generate
  rw [flipD_size]

/-- `arguments_size` ignores signedness. -/
theorem flipF_argumentsSize (f : Function) :
    (flipF f).argumentsSize = f.argumentsSize := by
  unfold Function.argumentsSize
  show ((flipDList f.argument_types).map DataType.sizeAligned).sum = _
  rw [flipDList_sizes]

/-- `argument_position` ignores signedness. -/
theorem flipF_argumentPosition (f : Function) (i : Nat) :
    (flipF f).argumentPosition i = f.argumentPosition i := by
  unfold Function.argumentPosition
  show (((flipDList f.argument_types).take i).map DataType.sizeAligned).sum = _
  rw [flipDList_eq_map, List.map_take, ← flipDList_eq_map, flipDList_sizes,
    List.map_take]

/-- `register_position` ignores signedness. -/
theorem flipF_registerPosition (f : Function) (i : Nat) :
    (flipF f).registerPosition i = f.registerPosition i := by
  unfold Function.registerPosition
  show (((flipDList f.register_types).take i).map DataType.sizeAligned).sum = _
  rw [flipDList_eq_map, List.map_take, ← flipDList_eq_map, flipDList_sizes,
    List.map_take]

/-- The data type of a flipped operand is the flipped data type. -/
theorem flipF_argumentDataType (f : Function) (a : Argument) :
    (flipF f).argumentDataType (flipA a) = flipD (f.argumentDataType a) := by
  cases a with
  | Register id => exact flipDList_getD f.register_types id
  | Argument id => exact flipDList_getD f.argument_types id
  | Constant v t => rfl
  | Symbol n t => rfl
  | ReturnValue => rfl
  | VoidRegister => rfl

/-- Operand text emission ignores signedness. -/
theorem generate_argument_flip (f : Function) (a : Argument) :
    generate_argument (flipF f) (flipA a) = generate_argument f a := by
  cases a with
  | Register id =>
      show (do
        let w ← ofOption
          (data_type_generate ((flipDList f.register_types).getD id .Void))
          EmitErr.badSize
        Except.ok (w ++ " [rbp - " ++
          toString (8 + (flipF f).registerPosition id) ++ "]")) = _
      rw [flipDList_getD, data_type_generate_flipD, flipF_registerPosition]
      rfl
  | Argument id =>
      show (do
        let w ← ofOption
          (data_type_generate ((flipDList f.argument_types).getD id .Void))
          EmitErr.badSize
        Except.ok (w ++ " [rbp + " ++
          toString (8 + (flipF f).argumentsSize
            - (flipF f).argumentPosition id) ++ "]")) = _
      rw [flipDList_getD, data_type_generate_flipD, flipF_argumentsSize,
        flipF_argumentPosition]
      rfl
  | ReturnValue =>
      show (do
        let w ← ofOption (data_type_generate (flipD f.return_type))
          EmitErr.badSize
        Except.ok (w ++ " [rbp + " ++
          toString (8 + (flipF f).argumentsSize
            + (flipD f.return_type).sizeAligned) ++ "]")) = _
      rw [data_type_generate_flipD, flipF_argumentsSize, flipD_sizeAligned]
      rfl
  | Constant v t => rfl
  | Symbol n t => rfl
  | VoidRegister => rfl

/-- Comparison emission ignores signedness of the operand types. -/
theorem generate_comparison_flip (f : Function) (dst lhs rhs : Argument)
    (operation : String) :
    generate_comparison (flipF f) (flipA dst) (flipA lhs) (flipA rhs) operation
      = generate_comparison f dst lhs rhs operation := by
  unfold generate_comparison
  rw [flipF_argumentDataType, flipF_argumentDataType,
    generate_argument_flip, generate_argument_flip, generate_argument_flip,
    nasmGenerate_flipD]
  cases f.argumentDataType dst <;> rfl

/-- C10: the instruction mnemonics never depend on the signedness of the
operand's integer type.  For `Div` and `Mod` — including signed types —
the emitted text is invariant under flipping the signedness of every
type, the division mnemonic is the unsigned `div` preceded by
`xor rdx, rdx` (shown concretely on an `S64` division); for the four
ordered comparisons — including unsigned types — the emitted condition
codes are the signed `setg`/`setl`/`setge`/`setle` (shown generically by
the `generate_comparison` calls and concretely on `U64` operands). -/
theorem c10_mnemonics_ignore_signedness (f : Function)
    (dst src lhs rhs : Argument) :
    generate_opcode (flipF f) (.Div (flipA dst) (flipA src))
      = generate_opcode f (.Div dst src) ∧
    generate_opcode (flipF f) (.Mod (flipA dst) (flipA src))
      = generate_opcode f (.Mod dst src) ∧
    generate_opcode (flipF f)
        (.SetIfGreater (flipA dst) (flipA lhs) (flipA rhs))
      = generate_opcode f (.SetIfGreater dst lhs rhs) ∧
    generate_opcode (flipF f)
        (.SetIfLess (flipA dst) (flipA lhs) (flipA rhs))
      = generate_opcode f (.SetIfLess dst lhs rhs) ∧
    generate_opcode (flipF f)
        (.SetIfGreaterOrEqual (flipA dst) (flipA lhs) (flipA rhs))
      = generate_opcode f (.SetIfGreaterOrEqual dst lhs rhs) ∧
    generate_opcode (flipF f)
        (.SetIfLessOrEqual (flipA dst) (flipA lhs) (flipA rhs))
      = generate_opcode f (.SetIfLessOrEqual dst lhs rhs) ∧
    generate_opcode f (.SetIfGreater dst lhs rhs)
      = generate_comparison f dst lhs rhs "setg" ∧
    generate_opcode f (.SetIfLess dst lhs rhs)
      = generate_comparison f dst lhs rhs "setl" ∧
    generate_opcode f (.SetIfGreaterOrEqual dst lhs rhs)
      = generate_comparison f dst lhs rhs "setge" ∧
    generate_opcode f (.SetIfLessOrEqual dst lhs rhs)
      = generate_comparison f dst lhs rhs "setle" ∧
    generate_opcode ⟨"f", .Void, [.Int .S64, .Int .S64], []⟩
        (.Div (.Register 0) (.Register 1))
      = .ok ("    xor rdx, rdx\n    mov rax, qword [rbp - 8]\n" ++
          "    mov rbx, qword [rbp - 16]\n    div rbx\n" ++
          "    mov qword [rbp - 8], rax\n") ∧
    generate_opcode ⟨"f", .Void, [.Int .S64, .Int .S64], []⟩
        (.Mod (.Register 0) (.Register 1))
      = .ok ("    xor rdx, rdx\n    mov rax, qword [rbp - 8]\n" ++
          "    mov rbx, qword [rbp - 16]\n    div rbx\n" ++
          "    mov qword [rbp - 8], rdx\n") ∧
    generate_opcode ⟨"g", .Void, [.Bool, .Int .U64, .Int .U64], []⟩
        (.SetIfGreater (.Register 0) (.Register 1) (.Register 2))
      = .ok ("    mov rax, qword [rbp - 16]\n" ++
          "    cmp rax, qword [rbp - 24]\n    setg byte [rbp - 8]\n") := by
  refine ⟨?_, ?_, ?_, ?_, ?_, ?_, rfl, rfl, rfl, rfl, by rfl, by rfl, by rfl⟩
  · simp only [generate_opcode]
    rw [flipF_argumentDataType, nasmGenerate_flipD, nasmGenerate_flipD,
      nasmGenerate_flipD, generate_argument_flip, generate_argument_flip]
  · simp only [generate_opcode]
    rw [flipF_argumentDataType, nasmGenerate_flipD, nasmGenerate_flipD,
      nasmGenerate_flipD, generate_argument_flip, generate_argument_flip]
  · simp only [generate_opcode]
    exact generate_comparison_flip f dst lhs rhs "setg"
  · simp only [generate_opcode]
    exact generate_comparison_flip f dst lhs rhs "setl"
  · simp only [generate_opcode]
    exact generate_comparison_flip f dst lhs rhs "setge"
  · simp only [generate_opcode]
    exact generate_comparison_flip f dst lhs rhs "setle"

/-- C6: `peek_token` does not consume — it returns exactly what an
immediately following `next_token` returns, leaves the lexing state
unchanged, and the composition `peek_token; next_token` is
observationally equal to `next_token` alone. -/
theorem c6_peek_token_does_not_consume (chars : LexState) :
    (peek_token chars).1 = (next_token chars).1 ∧
    (peek_token chars).2 = chars ∧
    next_token (peek_token chars).2 = next_token chars :=
  ⟨rfl, rfl, rfl⟩

end OIL
